import Mathlib

/-!
Shallow embedding of the PRD-to-domain-model pipeline
(src/domain/xyz/final-prd-to-csl.py) and of the schema transpiler
(src/domain/csl-to-tsp.py), with theorems settling the frozen claims
about the natural-language specification of the repository.

Strings are modelled by Lean String values; the Python string methods
used by the source (lower, upper, strip, capitalize, split, replace,
substring containment) are given executable definitions that follow the
Python semantics on the relevant inputs.
-/

namespace PrdPipeline

/-- Characters treated as whitespace by the Python string functions of the source. -/
def isPySpace (c : Char) : Bool :=
  c = ' ' || c = '\t' || c = '\n' || c = '\r' || c = '\x0b' || c = '\x0c'

/-- Word characters in the sense of the regex word class used by the source (ASCII reading). -/
def isWordChar (c : Char) : Bool :=
  c.isAlphanum || c = '_'

/-- Python s.lower() (ASCII). -/
def pyLower (s : String) : String := ⟨s.data.map Char.toLower⟩

/-- Python s.upper() (ASCII). -/
def pyUpper (s : String) : String := ⟨s.data.map Char.toUpper⟩

/-- Helper for pyStrip: drop leading and trailing whitespace from a character list. -/
def stripChars (l : List Char) : List Char :=
  ((l.dropWhile isPySpace).reverse.dropWhile isPySpace).reverse

/-- Python s.strip(). -/
def pyStrip (s : String) : String := ⟨stripChars s.data⟩

/-- Python s.capitalize(): first character uppercased, the rest lowercased. -/
def pyCapitalize (s : String) : String :=
  match s.data with
  | [] => ""
  | c :: cs => ⟨c.toUpper :: cs.map Char.toLower⟩

/-- Substring test on character lists. -/
def hasSub (pat : List Char) : List Char → Bool
  | [] => pat.isEmpty
  | c :: rest => pat.isPrefixOf (c :: rest) || hasSub pat rest

/-- Python substring containment, the in operator on str: strHas s pat holds when pat occurs in s. -/
def strHas (s pat : String) : Bool := hasSub pat.data s.data

/-- Helper for pySplitSep, accumulating the current piece in reverse; the fuel argument
makes the recursion structural and is always at least the length of the scanned list. -/
def splitSepAux (sep : List Char) : Nat → List Char → List Char → List (List Char)
  | _, [], cur => [cur.reverse]
  | 0, l, cur => [cur.reverse ++ l]
  | fuel + 1, c :: rest, cur =>
    if sep.isPrefixOf (c :: rest) then
      cur.reverse :: splitSepAux sep fuel (List.drop (sep.length - 1) rest) []
    else
      splitSepAux sep fuel rest (c :: cur)

/-- Python s.split(sep) for a non-empty separator: keeps empty pieces. -/
def pySplitSep (sep : String) (s : String) : List String :=
  (splitSepAux sep.data s.data.length s.data []).map fun l => ⟨l⟩

/-- Helper for pySplitWs. -/
def splitWsAux : List Char → List Char → List (List Char)
  | [], cur => if cur.isEmpty then [] else [cur.reverse]
  | c :: rest, cur =>
    if isPySpace c then
      if cur.isEmpty then splitWsAux rest [] else cur.reverse :: splitWsAux rest []
    else splitWsAux rest (c :: cur)

/-- Python s.split() with no argument: split on whitespace runs, dropping empty pieces. -/
def pySplitWs (s : String) : List String := (splitWsAux s.data []).map fun l => ⟨l⟩

/-- Helper for pyReplace, with structural fuel always at least the length of the scanned list. -/
def replaceAux (pat repl : List Char) : Nat → List Char → List Char
  | _, [] => []
  | 0, l => l
  | fuel + 1, c :: rest =>
    if !pat.isEmpty && pat.isPrefixOf (c :: rest) then
      repl ++ replaceAux pat repl fuel (List.drop (pat.length - 1) rest)
    else c :: replaceAux pat repl fuel rest

/-- Python s.replace(pat, repl): replace every occurrence (pat non-empty in all uses). -/
def pyReplace (s pat repl : String) : String :=
  ⟨replaceAux pat.data repl.data s.data.length s.data⟩

/-- Model of re.sub removing every character that is neither a word character nor whitespace. -/
def keepWordSpace (s : String) : String := ⟨s.data.filter fun c => isWordChar c || isPySpace c⟩

/-- Concatenation of a list of strings with an empty joiner, as in the Python join with empty string. -/
def joinAll (l : List String) : String := l.foldl (fun a b => a ++ b) ""

/-! Document tree: the output shape of parse_prd. -/

/-- One property of a Thing, as parsed by parse_prd. -/
structure Property where
  name : String
  description : String
deriving DecidableEq, Repr

/-- One Thing of the Things section. -/
structure Thing where
  name : String
  description : String
  properties : List Property
  rules : List String
  actions : List String
deriving DecidableEq, Repr

/-- One declared input of an operation. -/
structure OpInput where
  name : String
  type : String
deriving DecidableEq, Repr

/-- One operation of the Operations section. -/
structure Operation where
  name : String
  description : String
  who : String
  inputs : List OpInput
  outputs : String
  conditions : List String
  results : String
  notifications : List String
deriving DecidableEq, Repr

/-- A name plus description pair (key terms, features, connections). -/
structure NamedText where
  name : String
  description : String
deriving DecidableEq, Repr

/-- The overview block of the document tree. -/
structure Overview where
  description : String
  business_area : String
  importance : String
deriving DecidableEq, Repr

/-- The document tree produced by parse_prd. -/
structure PRD where
  overview : Overview
  key_terms : List NamedText
  features : List NamedText
  things : List Thing
  operations : List Operation
  connections : List NamedText
  constraints : List String
deriving DecidableEq, Repr

/-- The initial, all-empty document tree built at the top of parse_prd. -/
def emptyPrd : PRD :=
  { overview := { description := "", business_area := "", importance := "" }
    key_terms := []
    features := []
    things := []
    operations := []
    connections := []
    constraints := [] }

/-! Domain model: the output shape of infer_ddd_elements. -/

/-- An entity attribute: name, type and string-form constraints. -/
structure Attribute where
  name : String
  type : String
  constraints : List String
deriving DecidableEq, Repr

/-- A behavior of an entity (from a Thing action) with name and description. -/
structure Behavior where
  name : String
  description : String
deriving DecidableEq, Repr

/-- An inferred entity. -/
structure Entity where
  name : String
  description : String
  attributes : List Attribute
  invariants : List String
  behaviors : List Behavior
deriving DecidableEq, Repr

/-- A value object or domain event attribute: name and type only, no constraints. -/
structure VOAttr where
  name : String
  type : String
deriving DecidableEq, Repr

/-- A named instance of a value object. -/
structure VOInst where
  name : String
  description : String
deriving DecidableEq, Repr

/-- An inferred value object. -/
structure ValueObject where
  name : String
  description : String
  attributes : List VOAttr
  invariants : List String
  instances : List VOInst
deriving DecidableEq, Repr

/-- An inferred aggregate: name and root entity name. -/
structure Aggregate where
  name : String
  root : String
deriving DecidableEq, Repr

/-- An inferred repository: name and its behavior signature lines. -/
structure Repository where
  name : String
  behaviors : List String
deriving DecidableEq, Repr

/-- An inferred domain event. -/
structure DomainEvent where
  name : String
  description : String
  attributes : List VOAttr
deriving DecidableEq, Repr

/-- A permission behavior of the domain service. -/
structure PermBehavior where
  name : String
  description : String
  rule : String
deriving DecidableEq, Repr

/-- The singleton domain service. -/
structure DomainService where
  name : String
  description : String
  behaviors : List PermBehavior
deriving DecidableEq, Repr

/-- The inferred domain model. -/
structure DDD where
  bounded_context : String
  description : String
  entities : List Entity
  value_objects : List ValueObject
  aggregates : List Aggregate
  domain_services : List DomainService
  domain_events : List DomainEvent
  repositories : List Repository
  relationships : List NamedText
deriving DecidableEq, Repr

/-! Embedding of infer_ddd_elements (final-prd-to-csl.py lines 206 to 353). -/

/-- Bounded context naming: capitalized words of the punctuation-stripped business area,
or the fixed placeholder when the business area text is empty (line 210). -/
def boundedContextName (ba : String) : String :=
  if ba = "" then "UnnamedContext"
  else joinAll ((pySplitWs (keepWordSpace ba)).map pyCapitalize)

/-- Identity test of a Thing: some property description contains unique, case-insensitively (line 226). -/
def hasId (t : Thing) : Bool :=
  t.properties.any fun p => strHas (pyLower p.description) "unique"

/-- First comma-separated segment of a description, stripped and capitalized. -/
def firstSeg (d : String) : String :=
  pyCapitalize (pyStrip (((pySplitSep "," d).headD "")))

/-- Entity attribute construction (lines 235 to 244): type from the first comma segment,
constraints from the remaining segments, type overridden to List for a list of cue. -/
def mkEntityAttr (p : Property) : Attribute :=
  { name := p.name
    type := if strHas (pyLower p.description) "list of" then "List" else firstSeg p.description
    constraints := ((pySplitSep "," p.description).tail).map pyStrip }

/-- Entity behavior from a Thing action (lines 245 to 249). -/
def mkBehavior (a : String) : Behavior :=
  let parts := pySplitSep ":" a
  let nm := pyStrip (parts.headD "")
  { name := nm
    description :=
      match parts.tail.head? with
      | some d => pyStrip d
      | none => "Performs " ++ pyLower nm ++ "." }

/-- Entity built from a Thing (lines 228 to 250). -/
def mkEntity (t : Thing) : Entity :=
  { name := t.name
    description := t.description
    attributes := t.properties.map mkEntityAttr
    invariants := t.rules
    behaviors := t.actions.map mkBehavior }

/-- First property whose description contains unique, case-insensitively (line 255). -/
def firstUniqueProp (t : Thing) : Option Property :=
  t.properties.find? fun p => strHas (pyLower p.description) "unique"

/-- Repository built from a Thing and its identifying property (lines 257 to 265). -/
def mkRepository (t : Thing) (idp : Property) : Repository :=
  { name := t.name ++ "Repository"
    behaviors :=
      [ "findById(" ++ idp.name ++ ": " ++ firstSeg idp.description ++ "): " ++ t.name
      , "findAll(): List<" ++ t.name ++ ">"
      , "save(" ++ pyLower t.name ++ ": " ++ t.name ++ ")"
      , "delete(" ++ pyLower t.name ++ ": " ++ t.name ++ ")" ] }

/-- Value object built from a Thing without an identifying property (lines 268 to 275). -/
def mkThingVO (t : Thing) : ValueObject :=
  { name := t.name
    description := t.description
    attributes := t.properties.map fun p => { name := p.name, type := firstSeg p.description }
    invariants := t.rules
    instances := [] }

/-- Per-Thing entity contribution of the first inference loop. -/
def thingEntity (t : Thing) : Option Entity :=
  if hasId t then some (mkEntity t) else none

/-- Per-Thing value object contribution of the first inference loop. -/
def thingValueObject (t : Thing) : Option ValueObject :=
  if hasId t then none else some (mkThingVO t)

/-- Per-Thing aggregate contribution (lines 251 to 254). -/
def thingAggregate (t : Thing) : Option Aggregate :=
  if hasId t then some { name := t.name, root := t.name } else none

/-- Per-Thing repository contribution (lines 255 to 265). -/
def thingRepository (t : Thing) : Option Repository :=
  if hasId t then
    match firstUniqueProp t with
    | some idp => some (mkRepository t idp)
    | none => none
  else none

/-- Single-attribute value object synthesized from an identifier-like or email-like
property (lines 284 to 294). -/
def mkPropVO (thingName : String) (p : Property) : ValueObject :=
  let voName := pyCapitalize p.name
  { name := voName
    description := voName ++ " for " ++ thingName ++ "."
    attributes := [{ name := "value", type := firstSeg p.description }]
    invariants := (((pySplitSep "," p.description).tail).filter (fun c => c ≠ "")).map pyStrip
    instances := [] }

/-- The fixed instance pair of the Role value object (lines 306 to 309). -/
def roleInsts : List VOInst :=
  [ { name := "ADMIN", description := "Grants add/remove permissions" }
  , { name := "REGULAR_USER", description := "Grants view permissions" } ]

/-- The Role value object as created by the list of roles cue (lines 298 to 309); in the
source the instance list is assigned right after the append, so it is created filled. -/
def roleVO : ValueObject :=
  { name := "Role"
    description := "Represents a user role."
    attributes := [{ name := "name", type := "String" }]
    invariants := ["name must be ADMIN or REGULAR_USER"]
    instances := roleInsts }

/-- Assignment of the fixed instance pair to the first value object named Role,
mirroring the next(...) lookup plus mutation of lines 296 and 306. -/
def setRoleInsts : List ValueObject → List ValueObject
  | [] => []
  | vo :: rest =>
    if vo.name == "Role" then { vo with instances := roleInsts } :: rest
    else vo :: setRoleInsts rest

/-- One step of the property-driven synthesis loop (lines 281 to 312) for a single property. -/
def synthStep (thingName : String) (vos : List ValueObject) (p : Property) : List ValueObject :=
  let dl := pyLower p.description
  if strHas dl "unique" || strHas dl "valid email" then
    vos ++ [mkPropVO thingName p]
  else if strHas dl "list of roles" then
    if vos.any fun vo => vo.name == "Role" then setRoleInsts vos
    else vos ++ [roleVO]
  else vos

/-- The full property-driven synthesis loop over every property of every Thing. -/
def synthLoop (init : List ValueObject) (things : List Thing) : List ValueObject :=
  things.foldl (fun acc t => t.properties.foldl (synthStep t.name) acc) init

/-- Domain event from one notification of one operation (lines 317 to 324): the name
concatenates the capitalized pieces at indices 1 and 2 of the split on single spaces. -/
def mkEvent (op : Operation) (notif : String) : DomainEvent :=
  { name := joinAll ((((pySplitSep " " notif).drop 1).take 2).map pyCapitalize)
    description := notif
    attributes := op.inputs.map fun i => { name := i.name, type := pyCapitalize i.type } }

/-- All domain events, one per notification per operation in order (lines 315 to 327). -/
def inferEvents (ops : List Operation) : List DomainEvent :=
  ops.flatMap fun op => op.notifications.map (mkEvent op)

/-- The fixed rule text chosen when the who field contains all users (line 334). -/
def bothRolesRule : String := "True for ADMIN or REGULAR_USER roles"

/-- Role token of the who field: punctuation stripped, uppercased, every occurrence
of the uppercased word ONLY with its leading space removed (line 334). -/
def roleToken (who : String) : String :=
  pyReplace (pyUpper (keepWordSpace who)) " ONLY" ""

/-- Permission behavior derived from one operation (lines 333 to 339). -/
def mkPermBehavior (op : Operation) : PermBehavior :=
  { name := "can" ++ joinAll ((pySplitWs op.name).map pyCapitalize)
    description := "Checks if a user can " ++ pyLower op.name ++ "."
    rule :=
      if strHas (pyLower op.who) "all users" then bothRolesRule
      else "True for " ++ roleToken op.who ++ " role" }

/-- The domain service list: the singleton policy service when any permission behavior
exists, otherwise empty (lines 343 to 349). -/
def inferServices (ops : List Operation) : List DomainService :=
  let pbs := ops.map mkPermBehavior
  if pbs.isEmpty then []
  else
    [ { name := "InventoryPermissionPolicy"
      , description := "Manages permissions for inventory operations."
      , behaviors := pbs } ]

/-- Embedding of infer_ddd_elements (lines 206 to 353). -/
def inferDdd (prd : PRD) : DDD :=
  { bounded_context := boundedContextName prd.overview.business_area
    description := prd.overview.description
    entities := prd.things.filterMap thingEntity
    value_objects := synthLoop (prd.things.filterMap thingValueObject) prd.things
    aggregates := prd.things.filterMap thingAggregate
    domain_services := inferServices prd.operations
    domain_events := inferEvents prd.operations
    repositories := prd.things.filterMap thingRepository
    relationships := prd.connections }

/-! Embedding of generate_csl (final-prd-to-csl.py lines 355 to 443), as the pure string
the source writes to its output file. Literal braces are written as escapes. -/

/-- Numbered invariant lines, numbering restarting at the given index (source enumerates from 1). -/
def invLines : Nat → List String → String
  | _, [] => ""
  | i, inv :: rest => "      I" ++ toString i ++ ": \"" ++ inv ++ "\"\n" ++ invLines (i + 1) rest

/-- Aggregate block (lines 363 to 367). -/
def aggBlock (a : Aggregate) : String :=
  "  Aggregate " ++ a.name ++ " \x7b\n" ++
  "    description: \"Represents a " ++ pyLower a.name ++ ".\"\n" ++
  "    root: " ++ a.root ++ "\n" ++
  "  \x7d\n\n"

/-- Entity block (lines 370 to 385). -/
def entityBlock (e : Entity) : String :=
  "  Entity " ++ e.name ++ " \x7b\n" ++
  "    description: \"" ++ e.description ++ "\"\n" ++
  "    attributes: \x7b\n" ++
  joinAll (e.attributes.map fun a => "      " ++ a.name ++ ": " ++ a.type ++ "\n") ++
  "    \x7d\n" ++
  "    invariants: \x7b\n" ++
  invLines 1 e.invariants ++
  "    \x7d\n" ++
  "    behaviors: \x7b\n" ++
  joinAll (e.behaviors.map fun b => "      " ++ b.name ++ ": \"" ++ b.description ++ "\"\n") ++
  "    \x7d\n" ++
  "  \x7d\n\n"

/-- ValueObject block (lines 388 to 404); the instances sub-block appears only when non-empty. -/
def voBlock (vo : ValueObject) : String :=
  "  ValueObject " ++ vo.name ++ " \x7b\n" ++
  "    description: \"" ++ vo.description ++ "\"\n" ++
  "    attributes: \x7b\n" ++
  joinAll (vo.attributes.map fun a => "      " ++ a.name ++ ": " ++ a.type ++ "\n") ++
  "    \x7d\n" ++
  "    invariants: \x7b\n" ++
  invLines 1 vo.invariants ++
  "    \x7d\n" ++
  (if vo.instances.isEmpty then ""
   else
     "    instances: \x7b\n" ++
     joinAll (vo.instances.map fun i => "      " ++ i.name ++ ": \"" ++ i.description ++ "\"\n") ++
     "    \x7d\n") ++
  "  \x7d\n\n"

/-- DomainService block (lines 407 to 417). -/
def dsBlock (svc : DomainService) : String :=
  "  DomainService " ++ svc.name ++ " \x7b\n" ++
  "    description: \"" ++ svc.description ++ "\"\n" ++
  "    behaviors: \x7b\n" ++
  joinAll (svc.behaviors.map fun b =>
    "      " ++ b.name ++ ": Boolean\n" ++
    "        description: \"" ++ b.description ++ "\"\n" ++
    "        rule: \"" ++ b.rule ++ "\"\n") ++
  "    \x7d\n" ++
  "  \x7d\n\n"

/-- The domain service section of the output: one block per domain service. -/
def dsSection (svcs : List DomainService) : String := joinAll (svcs.map dsBlock)

/-- DomainEvent block (lines 419 to 427). -/
def eventBlock (ev : DomainEvent) : String :=
  "  DomainEvent " ++ ev.name ++ " \x7b\n" ++
  "    description: \"" ++ ev.description ++ "\"\n" ++
  "    attributes: \x7b\n" ++
  joinAll (ev.attributes.map fun a => "      " ++ a.name ++ ": " ++ a.type ++ "\n") ++
  "    \x7d\n" ++
  "  \x7d\n\n"

/-- Repository block (lines 429 to 437). -/
def repoBlock (r : Repository) : String :=
  "  Repository " ++ r.name ++ " \x7b\n" ++
  "    description: \"Manages " ++ pyReplace r.name "Repository" "" ++ " persistence.\"\n" ++
  "    behaviors: \x7b\n" ++
  joinAll (r.behaviors.map fun b => "      " ++ b ++ "\n") ++
  "    \x7d\n" ++
  "  \x7d\n\n"

/-- Embedding of generate_csl: the full notation text written by the source, in its
fixed block order: header, aggregates, entities, value objects, domain services,
domain events, repositories, closing brace. -/
def generateCsl (ddd : DDD) : String :=
  "BoundedContext " ++ ddd.bounded_context ++ " \x7b\n" ++
  "  description: \"" ++ ddd.description ++ "\"\n\n" ++
  joinAll (ddd.aggregates.map aggBlock) ++
  joinAll (ddd.entities.map entityBlock) ++
  joinAll (ddd.value_objects.map voBlock) ++
  dsSection ddd.domain_services ++
  joinAll (ddd.domain_events.map eventBlock) ++
  joinAll (ddd.repositories.map repoBlock) ++
  "\x7d\n"

/-! Embedding of parse_prd (final-prd-to-csl.py lines 17 to 204). The regular
expressions of the source are modelled by character-list scanners with the same
matching behavior on the shapes of text they are applied to: literal pieces are
matched directly, lazy captures run up to the first position where the lookahead
holds, and searches scan every starting position in order. -/

/-- Case-insensitive test that a list starts with the given lowercased pattern. -/
def isStartCI : List Char → List Char → Bool
  | [], _ => true
  | _ :: _, [] => false
  | p :: ps, c :: cs => p = c.toLower && isStartCI ps cs

/-- Remainder after a literal pattern when the list starts with it. -/
def dropLit (pat : String) (l : List Char) : Option (List Char) :=
  if pat.data.isPrefixOf l then some (l.drop pat.data.length) else none

/-- Remainder after a case-insensitive literal pattern (given lowercased). -/
def dropLitCI (pat : String) (l : List Char) : Option (List Char) :=
  if isStartCI pat.data l then some (l.drop pat.data.length) else none

/-- First index whose suffix satisfies the test. -/
def posOfSfx (p : List Char → Bool) : List Char → Option Nat
  | [] => none
  | c :: t => if p (c :: t) then some 0 else (posOfSfx p t).map (· + 1)

/-- Lazy capture up to the first position where the stop test holds, or to the end. -/
def captureTo (stop : List Char → Bool) (l : List Char) : List Char × List Char :=
  match posOfSfx stop l with
  | some i => (l.take i, l.drop i)
  | none => (l, [])

/-- Model of re.search for a labeled single-value field (case-insensitive): find the
label, capture lazily until the stop label or the end, strip; empty when absent. -/
def fieldCI (label : String) (stop : Option String) (body : List Char) : String :=
  match posOfSfx (isStartCI label.data) body with
  | none => ""
  | some i =>
    let r := body.drop (i + label.length)
    let cap :=
      match stop with
      | some st => (captureTo (isStartCI st.data) r).1
      | none => r
    pyStrip ⟨cap⟩

/-- Scan for the first suffix where the matcher succeeds: text before the match, the
captured value, and the rest after the match. -/
def scanFirst (f : List Char → Option (α × List Char)) :
    List Char → Option (List Char × α × List Char)
  | [] => none
  | c :: t =>
    match f (c :: t) with
    | some (a, rest) => some ([], a, rest)
    | none => (scanFirst f t).map fun x => (c :: x.1, x.2.1, x.2.2)

/-- Fueled splitter in the style of re.split with one capture group: the leading text
and the (capture, following text) pairs. Every matcher used consumes at least one
character, so fuel equal to the list length is always enough. -/
def splitCapsAux (f : List Char → Option (α × List Char)) :
    Nat → List Char → List Char × List (α × List Char)
  | 0, l => (l, [])
  | fuel + 1, l =>
    match scanFirst f l with
    | none => (l, [])
    | some (pre, a, rest) =>
      let next := splitCapsAux f fuel rest
      (pre, (a, next.1) :: next.2)

/-- Splitter entry point with fuel set to the list length. -/
def splitCaps (f : List Char → Option (α × List Char)) (l : List Char) :
    List Char × List (α × List Char) :=
  splitCapsAux f l.length l

/-- Fueled scanner in the style of re.findall: all non-overlapping matches in order. -/
def findAllAux (f : List Char → Option (α × List Char)) : Nat → List Char → List α
  | 0, _ => []
  | fuel + 1, l =>
    match scanFirst f l with
    | none => []
    | some (_, a, rest) => a :: findAllAux f fuel rest

/-- Findall entry point with fuel set to the list length. -/
def findAllOf (f : List Char → Option (α × List Char)) (l : List Char) : List α :=
  findAllAux f l.length l

/-- Model of the blank-line collapsing substitution (line 41): a newline followed by a
whitespace run containing another newline is replaced by a single newline; the match
extends to the last newline of the run. -/
def collapseBlanksAux : Nat → List Char → List Char
  | 0, l => l
  | _, [] => []
  | fuel + 1, c :: rest =>
    if c = '\n' then
      let run := rest.takeWhile isPySpace
      if run.contains '\n' then
        let keepTail := (run.reverse.takeWhile fun d => d ≠ '\n').length
        '\n' :: collapseBlanksAux fuel (rest.drop (run.length - keepTail))
      else c :: collapseBlanksAux fuel rest
    else c :: collapseBlanksAux fuel rest

/-- Model of the tab substitution (line 42): every run of tabs becomes two spaces. -/
def tabsToSpaces : Nat → List Char → List Char
  | 0, l => l
  | _, [] => []
  | fuel + 1, c :: rest =>
    if c = '\t' then
      ' ' :: ' ' :: tabsToSpaces fuel (rest.dropWhile fun d => d = '\t')
    else c :: tabsToSpaces fuel rest

/-- Normalization of the raw text (lines 41 and 42): strip, collapse blank runs,
replace tab runs. -/
def normalizePrd (content : String) : String :=
  let l := stripChars content.data
  let l2 := collapseBlanksAux l.length l
  ⟨tabsToSpaces l2.length l2⟩

/-- Matcher for the section marker regex (line 46): one or more hash signs, optional
whitespace, an optional case-insensitive Section label with colon, then one word
optionally followed by whitespace and a second word; the captured name is the word or
word pair, and the optional label is backtracked away when no word follows it. -/
def matchSectionMarker (l : List Char) : Option (String × List Char) :=
  let hashes := l.takeWhile fun c => c = '#'
  if hashes.isEmpty then none else
  let r1 := l.drop hashes.length
  let r2 := r1.dropWhile isPySpace
  let r3 :=
    match dropLitCI "section:" r2 with
    | some r =>
      let r' := r.dropWhile isPySpace
      if isWordChar (r'.headD ' ') then r' else r2
    | none => r2
  let w1 := r3.takeWhile isWordChar
  if w1.isEmpty then none else
  let r4 := r3.drop w1.length
  let ws2 := r4.takeWhile isPySpace
  let r5 := r4.drop ws2.length
  let w2 := r5.takeWhile isWordChar
  if !ws2.isEmpty && !w2.isEmpty then some (⟨w1 ++ ws2 ++ w2⟩, r5.drop w2.length)
  else some (⟨w1⟩, r4)

/-- Overview sub-parser (lines 59 to 69): three labeled fields, each captured up to the
next known label or the end of the section. -/
def parseOverviewSec (body : List Char) : Overview :=
  { description := fieldCI "- product description: " (some "- business area:") body
    business_area := fieldCI "- business area: " (some "- importance:") body
    importance := fieldCI "- importance: " none body }

/-- Lookahead for the next key term item: dash, space, word, colon, space (line 73). -/
def isTermHead (l : List Char) : Bool :=
  match dropLit "- " l with
  | none => false
  | some r =>
    let w := r.takeWhile isWordChar
    !w.isEmpty && ": ".data.isPrefixOf (r.drop w.length)

/-- Matcher for one key term item (line 73). -/
def matchKeyTerm (l : List Char) : Option (NamedText × List Char) :=
  match dropLit "- " l with
  | none => none
  | some r1 =>
    let w := r1.takeWhile isWordChar
    if w.isEmpty then none else
    match dropLit ": " (r1.drop w.length) with
    | none => none
    | some r3 =>
      let (cap, rest) := captureTo isTermHead r3
      some ({ name := pyStrip ⟨w⟩, description := pyStrip ⟨cap⟩ }, rest)

/-- Key terms sub-parser (lines 71 to 77). -/
def parseKeyTermsSec (body : List Char) : List NamedText :=
  findAllOf matchKeyTerm body

/-- Matcher for one name-description item whose name may be free text, capturing the
description up to the given stop (features line 81, connections line 188). -/
def matchNamedItem (stop : List Char → Bool) (l : List Char) :
    Option (NamedText × List Char) :=
  match dropLit "- " l with
  | none => none
  | some r1 =>
    match posOfSfx (fun s => ": ".data.isPrefixOf s) r1 with
    | none => none
    | some i =>
      let nm := r1.take i
      let r2 := r1.drop (i + 2)
      let (cap, rest) := captureTo stop r2
      some ({ name := pyStrip ⟨nm⟩, description := pyStrip ⟨cap⟩ }, rest)

/-- Features sub-parser (lines 79 to 85), terminated also by a subsection marker. -/
def parseFeaturesSec (body : List Char) : List NamedText :=
  findAllOf
    (matchNamedItem fun s => "- ".data.isPrefixOf s || "#".data.isPrefixOf s) body

/-- Connections sub-parser (lines 186 to 192). -/
def parseConnectionsSec (body : List Char) : List NamedText :=
  findAllOf (matchNamedItem fun s => "- ".data.isPrefixOf s) body

/-- Matcher for one constraint item (line 196). -/
def matchConstraint (l : List Char) : Option (String × List Char) :=
  match dropLit "- " l with
  | none => none
  | some r1 =>
    let (cap, rest) := captureTo (fun s => "- ".data.isPrefixOf s) r1
    some (pyStrip ⟨cap⟩, rest)

/-- Constraints sub-parser (lines 194 to 200). -/
def parseConstraintsSec (body : List Char) : List String :=
  findAllOf matchConstraint body

/-- Matcher for a Thing heading, dash space word colon (line 90). -/
def matchThingHead (l : List Char) : Option (String × List Char) :=
  match dropLit "- " l with
  | none => none
  | some r1 =>
    let w := r1.takeWhile isWordChar
    if w.isEmpty then none else
    match dropLit ":" (r1.drop w.length) with
    | none => none
    | some r3 => some (⟨w⟩, r3)

/-- Scan for the first line-anchored Thing heading, tracking line starts. -/
def scanThingHead : Bool → List Char → Option (List Char × String × List Char)
  | _, [] => none
  | atStart, c :: t =>
    match (if atStart then matchThingHead (c :: t) else none) with
    | some (nm, rest) => some ([], nm, rest)
    | none => (scanThingHead (c = '\n') t).map fun x => (c :: x.1, x.2.1, x.2.2)

/-- Fueled pairing of Thing names with their bodies, as the multiline re.split of
line 90: each body runs to the next line-anchored heading. -/
def thingPairsAux : Nat → String → List Char → List (String × List Char)
  | 0, nm, l => [(nm, l)]
  | fuel + 1, nm, l =>
    match scanThingHead false l with
    | none => [(nm, l)]
    | some (pre, nm2, rest) => (nm, pre) :: thingPairsAux fuel nm2 rest

/-- All (name, body) pairs of the Things section under the primary split. -/
def thingPairs (l : List Char) : List (String × List Char) :=
  match scanThingHead true l with
  | none => []
  | some (_, nm, rest) => thingPairsAux rest.length nm rest

/-- Lookahead for the pattern dash space word colon (used as a stop in several
sub-parsers of the Things section). -/
def isThingStop (s : List Char) : Bool :=
  match dropLit "- " s with
  | none => false
  | some r =>
    let w := r.takeWhile isWordChar
    !w.isEmpty && ":".data.isPrefixOf (r.drop w.length)

/-- Matcher for the Things fallback items (line 95): line-anchored dash space word
colon space, capture until the next dash word colon anywhere or the end. -/
def matchThingFB (l : List Char) : Option (String × List Char) :=
  match dropLit "- " l with
  | none => none
  | some r1 =>
    let w := r1.takeWhile isWordChar
    if w.isEmpty then none else
    match dropLit ": " (r1.drop w.length) with
    | none => none
    | some r3 => some (⟨w⟩, r3)

/-- Fueled scan for the Things fallback findall, tracking line starts across matches. -/
def scanThingFBAux : Nat → Bool → List Char → List (String × String)
  | 0, _, _ => []
  | _ + 1, _, [] => []
  | fuel + 1, atStart, c :: t =>
    match (if atStart then matchThingFB (c :: t) else none) with
    | some (nm, r) =>
      let (cap, rest) := captureTo isThingStop r
      (nm, pyStrip ⟨cap⟩) :: scanThingFBAux fuel (cap.getLastD ' ' = '\n') rest
    | none => scanThingFBAux fuel (c = '\n') t

/-- Matcher for the labeled Properties sub-block (line 109): the label, whitespace, then
a bulleted run that must start with a dash word colon unit, captured up to the next
subsection marker or the end. -/
def matchPropsBlock (l : List Char) : Option (List Char × List Char) :=
  match dropLit "## Properties:" l with
  | none => none
  | some r1 =>
    let r2 := r1.dropWhile isPySpace
    if isThingStop r2 then
      let (cap, rest) := captureTo (fun s => "##".data.isPrefixOf s) r2
      some (cap, rest)
    else none

/-- Matcher for one property line (lines 111 and 115), returning the raw name and raw
description; the stop lookahead differs between the primary and fallback uses. -/
def matchPropLine (stop : List Char → Bool) (l : List Char) :
    Option ((String × String) × List Char) :=
  match dropLit "-" l with
  | none => none
  | some r1 =>
    let r2 := r1.dropWhile isPySpace
    let w := r2.takeWhile isWordChar
    if w.isEmpty then none else
    match dropLit ":" (r2.drop w.length) with
    | none => none
    | some r4 =>
      let r5 := r4.dropWhile isPySpace
      let (cap, rest) := captureTo stop r5
      some ((⟨w⟩, ⟨cap⟩), rest)

/-- Matcher for a labeled bulleted sub-block such as Rules or Actions (lines 120
and 131): label, whitespace, then a run that must start with a dash, captured up to
the next subsection marker or the end. -/
def matchDashBlock (label : String) (l : List Char) : Option (List Char × List Char) :=
  match dropLit label l with
  | none => none
  | some r1 =>
    let r2 := r1.dropWhile isPySpace
    if "-".data.isPrefixOf r2 then
      let (cap, rest) := captureTo (fun s => "##".data.isPrefixOf s) r2
      some (cap, rest)
    else none

/-- Matcher for one dash item with a raw capture (lines 122, 126, 133, 137). -/
def matchDashItem (stop : List Char → Bool) (l : List Char) :
    Option (String × List Char) :=
  match dropLit "-" l with
  | none => none
  | some r1 =>
    let r2 := r1.dropWhile isPySpace
    let (cap, rest) := captureTo stop r2
    some (⟨cap⟩, rest)

/-- Stop lookahead of the fallback scans inside a Thing body: the next dash word colon
or a subsection marker. -/
def thingFBStop (s : List Char) : Bool :=
  isThingStop s || "##".data.isPrefixOf s

/-- Per-Thing parse (lines 98 to 147): description up to the Properties marker, then
properties, rules and actions, each with a primary labeled pattern and a lexical-cue
fallback. -/
def parseThing (nm : String) (content : List Char) : Thing :=
  let desc := pyStrip ⟨(captureTo (fun s => "## Properties:".data.isPrefixOf s) content).1⟩
  let props :=
    match scanFirst matchPropsBlock content with
    | some x =>
      (findAllOf (matchPropLine isThingStop) x.2.1).map fun p =>
        { name := pyStrip p.1, description := pyStrip p.2 }
    | none =>
      ((findAllOf (matchPropLine thingFBStop) content).filter fun p =>
        !strHas (pyLower p.2) "must" && !strHas (pyLower p.2) "needs").map fun p =>
        { name := pyStrip p.1, description := pyStrip p.2 }
  let rules :=
    match scanFirst (matchDashBlock "## Rules:") content with
    | some x =>
      ((findAllOf (matchDashItem fun s => "- ".data.isPrefixOf s) x.2.1).map pyStrip).filter
        fun r => r ≠ ""
    | none =>
      ((findAllOf (matchDashItem thingFBStop) content).filter fun r =>
        pyStrip r ≠ "" && strHas (pyLower r) "must").map pyStrip
  let actions :=
    match scanFirst (matchDashBlock "## Actions:") content with
    | some x =>
      ((findAllOf (matchDashItem fun s => "- ".data.isPrefixOf s) x.2.1).map pyStrip).filter
        fun a => a ≠ ""
    | none =>
      ((findAllOf (matchDashItem thingFBStop) content).filter fun a =>
        pyStrip a ≠ "" && strHas (pyLower a) "needs").map pyStrip
  { name := pyStrip nm
    description := desc
    properties := props
    rules := rules
    actions := actions }

/-- Things sub-parser (lines 87 to 151): primary line-anchored split with non-blank
bodies, else the fallback findall; each pair is parsed into a Thing. -/
def parseThingsSec (body : List Char) : List Thing :=
  let pairs := (thingPairs body).filter fun x => pyStrip ⟨x.2⟩ ≠ ""
  if pairs.isEmpty then
    (scanThingFBAux body.length true body).map fun x => parseThing x.1 x.2.data
  else
    pairs.map fun x => parseThing x.1 x.2

/-- Scan of an operation name (line 155): at least one character other than a hash
sign, up to a newline that is followed by a dash or the end of the text. -/
def opNameScan : List Char → List Char → Option (String × List Char)
  | [], _ => none
  | c :: t, acc =>
    if c = '#' then none
    else if c = '\n' then
      if acc.isEmpty then opNameScan t (c :: acc)
      else
        match t with
        | [] => some (⟨acc.reverse⟩, [])
        | d :: _ => if d = '-' then some (⟨acc.reverse⟩, t) else opNameScan t (c :: acc)
    else opNameScan t (c :: acc)

/-- Backtracking over the greedy whitespace run after the two hash signs: the longest
whitespace run that still lets the name scan succeed wins. -/
def opHeadWithWs : Nat → List Char → Option (String × List Char)
  | 0, r => opNameScan r []
  | k + 1, r =>
    match opNameScan (r.drop (k + 1)) [] with
    | some res => some res
    | none => opHeadWithWs k r

/-- Matcher for an operation heading (line 155). -/
def matchOpHead (l : List Char) : Option (String × List Char) :=
  match dropLit "##" l with
  | none => none
  | some r1 =>
    let ws := r1.takeWhile isPySpace
    opHeadWithWs ws.length r1

/-- Matcher for one declared input line (line 161): dash space word colon space word
newline. -/
def matchInputLine (l : List Char) : Option (OpInput × List Char) :=
  match dropLit "- " l with
  | none => none
  | some r1 =>
    let w1 := r1.takeWhile isWordChar
    if w1.isEmpty then none else
    match dropLit ": " (r1.drop w1.length) with
    | none => none
    | some r3 =>
      let w2 := r3.takeWhile isWordChar
      if w2.isEmpty then none else
      match dropLit "\n" (r3.drop w2.length) with
      | none => none
      | some r5 => some ({ name := ⟨w1⟩, type := ⟨w2⟩ }, r5)

/-- Greedy run of consecutive input lines. -/
def inputsRun : Nat → List Char → List OpInput × List Char
  | 0, l => ([], l)
  | fuel + 1, l =>
    match matchInputLine l with
    | none => ([], l)
    | some (i, rest) =>
      let next := inputsRun fuel rest
      (i :: next.1, next.2)

/-- Matcher for the Inputs block (lines 161 to 164): the label, whitespace, then at
least one input line; the inner findall returns exactly the pairs of those lines. -/
def matchInputsBlock (l : List Char) : Option (List OpInput × List Char) :=
  match dropLit "- Inputs:" l with
  | none => none
  | some r1 =>
    let r2 := r1.dropWhile isPySpace
    let run := inputsRun r2.length r2
    if run.1.isEmpty then none else some run

/-- Matcher for a labeled one-item list such as Conditions or Notifications
(lines 166 and 168): the label, whitespace, a dash-space item captured up to the next
dash item or the end. -/
def matchLabeledItem (label : String) (l : List Char) : Option (String × List Char) :=
  match dropLit label l with
  | none => none
  | some r1 =>
    let r2 := r1.dropWhile isPySpace
    match dropLit "- " r2 with
    | none => none
    | some r3 =>
      let (cap, rest) := captureTo (fun s => "- ".data.isPrefixOf s) r3
      some (⟨cap⟩, rest)

/-- Per-operation field extraction (lines 157 to 179). -/
def parseOperation (nm : String) (body : List Char) : Operation :=
  { name := nm
    description := fieldCI "- describe what the action does: " (some "- who can do it:") body
    who := fieldCI "- who can do it: " (some "- inputs:") body
    inputs :=
      match scanFirst matchInputsBlock body with
      | some x => x.2.1
      | none => []
    outputs := fieldCI "- outputs: " (some "- conditions:") body
    conditions := (findAllOf (matchLabeledItem "- Conditions:") body).map pyStrip
    results := fieldCI "- results: " (some "- notifications:") body
    notifications := (findAllOf (matchLabeledItem "- Notifications:") body).map pyStrip }

/-- Operations sub-parser (lines 153 to 184): split on operation headings, keep pairs
with non-blank bodies, and parse the fields of each. -/
def parseOperationsSec (body : List Char) : List Operation :=
  let pairs := (splitCaps matchOpHead body).2
  (pairs.filter fun x => pyStrip ⟨x.2⟩ ≠ "").map fun x =>
    parseOperation (pyStrip x.1) (pyStrip ⟨x.2⟩).data

/-- Dispatch of one section to its sub-parser (lines 54 to 200); unknown names are
ignored; the key terms, features, connections and constraints handlers assign their
collection, while the things and operations handlers append. -/
def applySection (prd : PRD) (nm : String) (body : String) : PRD :=
  let sname := pyReplace (pyLower nm) " " "_"
  if sname = "overview" then { prd with overview := parseOverviewSec body.data }
  else if sname = "key_terms" then { prd with key_terms := parseKeyTermsSec body.data }
  else if sname = "features" then { prd with features := parseFeaturesSec body.data }
  else if sname = "things" then { prd with things := prd.things ++ parseThingsSec body.data }
  else if sname = "operations" then
    { prd with operations := prd.operations ++ parseOperationsSec body.data }
  else if sname = "connections" then { prd with connections := parseConnectionsSec body.data }
  else if sname = "constraints" then { prd with constraints := parseConstraintsSec body.data }
  else prd

/-- Embedding of parse_prd (lines 17 to 204) on the raw text already read from the
input file: normalize, split on section markers, return the empty tree when no marker
is found, else fold the section handlers over the stripped (name, body) pairs. -/
def parsePrd (content : String) : PRD :=
  let norm := normalizePrd content
  let pairs := (splitCaps matchSectionMarker norm.data).2
  if pairs.isEmpty then emptyPrd
  else pairs.foldl (fun prd x => applySection prd (pyStrip x.1) (pyStrip ⟨x.2⟩)) emptyPrd

/-- The composed pipeline on raw text: parse, infer, generate. -/
def pipelineRun (content : String) : String :=
  generateCsl (inferDdd (parsePrd content))

/-! Embedding of the schema transpiler CSLToTypeSpecConverter.convert
(csl-to-tsp.py lines 31 to 154). The output is the newline join of the emitted
lines; indentation is transcribed per line. -/

/-- One parsed schema attribute: name, type, and the optional constraint list of the
brace group (absent when the line has no complete brace group). -/
structure TspAttr where
  name : String
  type : String
  constraints : Option (List String)
deriving DecidableEq, Repr

/-- Join of emitted lines with newlines, as the final join of the output list. -/
def joinLines : List String → String
  | [] => ""
  | [x] => x
  | x :: y :: rest => x ++ "\n" ++ joinLines (y :: rest)

/-- Bounded context name: the anchored match of BoundedContext, whitespace, word at
the start of the text (lines 37 to 39); empty when absent. -/
def contextName (csl : String) : String :=
  match dropLit "BoundedContext" csl.data with
  | none => ""
  | some r1 =>
    let ws := r1.takeWhile isPySpace
    if ws.isEmpty then "" else
    let w := (r1.drop ws.length).takeWhile isWordChar
    if w.isEmpty then "" else ⟨w⟩

/-- The fixed service header lines (lines 42 to 51). -/
def headerLines (ctx : String) : List String :=
  [ "namespace " ++ ctx ++ ";"
  , ""
  , "@doc(\"Generated API from CSL model\")"
  , "service " ++ ctx ++ "Service \x7b"
  , "  host: \"api.example.com\";"
  , "  version: \"1.0.0\";"
  , "\x7d"
  , "" ]

/-- One attribute line of parse_attributes (lines 18 to 28): name before the first
colon, then a word type optionally followed by a complete brace-enclosed constraint
list; lines without a colon or without a leading word type produce nothing. -/
def parseAttrLine (line : String) : Option TspAttr :=
  match posOfSfx (fun s => ":".data.isPrefixOf s) line.data with
  | none => none
  | some i =>
    let nm := pyStrip ⟨line.data.take i⟩
    let rest := stripChars (line.data.drop (i + 1))
    let w := rest.takeWhile isWordChar
    if w.isEmpty then none else
    let r2 := (rest.drop w.length).dropWhile isPySpace
    match dropLit "\x7b" r2 with
    | some r3 =>
      let inner := r3.takeWhile fun c => c ≠ '\x7d'
      if "\x7d".data.isPrefixOf (r3.drop inner.length) then
        some { name := nm, type := ⟨w⟩
             , constraints := some ((pySplitSep "," ⟨inner⟩).map pyStrip) }
      else some { name := nm, type := ⟨w⟩, constraints := none }
    | none => some { name := nm, type := ⟨w⟩, constraints := none }

/-- parse_attributes (lines 15 to 29): strip, split on newlines, parse each line. -/
def parseAttributes (attrs : String) : List TspAttr :=
  (pySplitSep "\n" (pyStrip attrs)).filterMap parseAttrLine

/-- Test that a suffix starts with a closing brace; the stop of the lazy captures of
the transpiler regexes. -/
def isCloseBrace (s : List Char) : Bool := "\x7d".data.isPrefixOf s

/-- Matcher for a labeled brace sub-block, the pattern label whitespace brace lazy
capture brace (lines 59, 85, 140); it requires a closing brace after the label. -/
def matchBraceBlock (label : String) (l : List Char) : Option (String × List Char) :=
  match dropLit label l with
  | none => none
  | some r1 =>
    let r2 := r1.dropWhile isPySpace
    match dropLit "\x7b" r2 with
    | none => none
    | some r3 =>
      match posOfSfx isCloseBrace r3 with
      | none => none
      | some i => some (⟨r3.take i⟩, r3.drop (i + 1))

/-- Search for a labeled brace sub-block anywhere in the text. -/
def searchBraceBlock (label : String) (l : List Char) : Option String :=
  (scanFirst (matchBraceBlock label) l).map fun x => x.2.1

/-- Matcher for a top-level block, the pattern keyword whitespace name whitespace
brace lazy capture brace (lines 54 and 137); the lazy capture stops at the first
closing brace, so the captured content never contains one. -/
def matchTopBlock (kw : String) (l : List Char) : Option ((String × String) × List Char) :=
  match dropLit kw l with
  | none => none
  | some r1 =>
    let ws := r1.takeWhile isPySpace
    if ws.isEmpty then none else
    let r2 := r1.drop ws.length
    let w := r2.takeWhile isWordChar
    if w.isEmpty then none else
    let r3 := (r2.drop w.length).dropWhile isPySpace
    match dropLit "\x7b" r3 with
    | none => none
    | some r4 =>
      match posOfSfx isCloseBrace r4 with
      | none => none
      | some i => some ((⟨w⟩, ⟨r4.take i⟩), r4.drop (i + 1))

/-- All top-level blocks of a keyword, in finditer order. -/
def allBlocks (kw : String) (l : List Char) : List (String × String) :=
  findAllOf (matchTopBlock kw) l

/-- One model attribute line (lines 66 to 79): sequence types render as string arrays,
others as the lowercased type; a constraint list without optional keeps the field
required, with optional makes it optional. -/
def modelAttrLine (a : TspAttr) : String :=
  let base := a.name ++ (if a.type = "List" then ": string[]" else ": " ++ pyLower a.type)
  match a.constraints with
  | some cs => if cs.contains "optional" then base ++ "?;" else base ++ ";"
  | none => base ++ ";"

/-- Endpoint lines for one behavior line (lines 92 to 131): a name containing add
emits the create endpoint pair, a name containing remove emits the delete endpoint
pair; the source reads the attributes variable of the enclosing scope, modelled here
as the attribute list of the current entity (empty when absent); this code is
unreachable, as proved below. -/
def behaviorLines (entName : String) (attributes : List TspAttr) (line : String) :
    List String :=
  match posOfSfx (fun s => ":".data.isPrefixOf s) line.data with
  | none => []
  | some i =>
    let nm := pyStrip ⟨line.data.take i⟩
    let ds := pyStrip ⟨line.data.drop (i + 1)⟩
    if strHas (pyLower nm) "add" then
      [ "  @post"
      , "  @doc(\"" ++ ds ++ "\")"
      , "  create(@body " ++ pyLower entName ++ ": \x7b" ]
      ++ ((attributes.filter fun a => (a.constraints.getD []).contains "required").map
           fun a => "    " ++ a.name ++ ": " ++ pyLower a.type ++ ";")
      ++ [ "  \x7d): \x7b"
         , "    @statusCode statusCode: 201;"
         , "    @body created" ++ entName ++ ": " ++ entName ++ ";"
         , "  \x7d | \x7b"
         , "    @statusCode statusCode: 400;"
         , "    @body error: string;"
         , "  \x7d;"
         , "  " ]
    else if strHas (pyLower nm) "remove" then
      [ "  @delete"
      , "  @route(\"/\x7binventoryId\x7d\")"
      , "  @doc(\"" ++ ds ++ "\")"
      , "  delete(@path inventoryId: string): \x7b"
      , "    @statusCode statusCode: 204;"
      , "  \x7d | \x7b"
      , "    @statusCode statusCode: 404;"
      , "    @body error: string;"
      , "  \x7d;"
      , "  " ]
    else []

/-- Lines emitted for one Entity block (lines 55 to 134). -/
def entityLines (nm : String) (content : String) : List String :=
  let attrsOpt := searchBraceBlock "attributes:" content.data
  let attributes :=
    match attrsOpt with
    | some a => parseAttributes a
    | none => []
  let modelPart :=
    match attrsOpt with
    | some _ =>
      ("model " ++ nm ++ " \x7b") :: attributes.map modelAttrLine ++ ["\x7d", ""]
    | none => []
  let behPart :=
    match searchBraceBlock "behaviors:" content.data with
    | some b =>
      [ "@route(\"/" ++ pyLower nm ++ "s\")"
      , "interface " ++ nm ++ "Operations \x7b" ]
      ++ (pySplitSep "\n" (pyStrip b)).flatMap (behaviorLines nm attributes)
      ++ [ "\x7d" ]
    | none => []
  modelPart ++ behPart

/-- Lines emitted for one ValueObject block (lines 137 to 152). -/
def voEnumLines (nm : String) (content : String) : List String :=
  match searchBraceBlock "instances:" content.data with
  | none => []
  | some ins =>
    ("enum " ++ nm ++ " \x7b")
      :: (pySplitSep "\n" (pyStrip ins)).flatMap (fun line =>
          match posOfSfx (fun s => ":".data.isPrefixOf s) line.data with
          | none => []
          | some i =>
            [ "  @doc(\"" ++ pyStrip ⟨line.data.drop (i + 1)⟩ ++ "\")"
            , "  " ++ pyStrip ⟨line.data.take i⟩ ++ "," ])
      ++ ["\x7d", ""]

/-- Embedding of CSLToTypeSpecConverter.convert: header, Entity handling,
ValueObject handling, joined by newlines. -/
def convert (csl : String) : String :=
  joinLines (headerLines (contextName csl)
    ++ (allBlocks "Entity" csl.data).flatMap (fun e => entityLines e.1 e.2)
    ++ (allBlocks "ValueObject" csl.data).flatMap (fun v => voEnumLines v.1 v.2))

/-! Theorems settling the claims. -/

/-- C9: the pipeline generate(infer(parse(text))) run twice on the same input text
produces byte-identical notation output; in this embedding parse_prd,
infer_ddd_elements and generate_csl are pure functions of their input value alone
(the source adds only logging and file IO around them), so two runs coincide. -/
theorem c9_pipeline_deterministic (content : String) :
    pipelineRun content = pipelineRun content := rfl

/-- C10: when the document tree contains zero operations, the inferred domain service
list is empty and the generated notation contains no DomainService block at all: the
domain service section of generate_csl renders to the empty string and the output
consists of exactly the other sections. -/
theorem c10_service_only_with_ops (prd : PRD) (h : prd.operations = []) :
    (inferDdd prd).domain_services = [] ∧
    dsSection (inferDdd prd).domain_services = "" ∧
    generateCsl (inferDdd prd) =
      "BoundedContext " ++ (inferDdd prd).bounded_context ++ " \x7b\n" ++
      "  description: \"" ++ (inferDdd prd).description ++ "\"\n\n" ++
      joinAll ((inferDdd prd).aggregates.map aggBlock) ++
      joinAll ((inferDdd prd).entities.map entityBlock) ++
      joinAll ((inferDdd prd).value_objects.map voBlock) ++
      joinAll ((inferDdd prd).domain_events.map eventBlock) ++
      joinAll ((inferDdd prd).repositories.map repoBlock) ++
      "\x7d\n" := by
  have h1 : (inferDdd prd).domain_services = [] := by
    simp [inferDdd, inferServices, h]
  have h2 : dsSection (inferDdd prd).domain_services = "" := by
    rw [h1]; rfl
  refine ⟨h1, h2, ?_⟩
  show generateCsl (inferDdd prd) = _
  rw [generateCsl, h2]
  simp [String.append_assoc, String.append_empty]

/-- Witness for C10 at the empty document tree. -/
theorem c10_service_only_with_ops_witness : (inferDdd emptyPrd).domain_services = [] :=
  (c10_service_only_with_ops emptyPrd rfl).1

/-- Document tree for the C1 counterexample: the Thing named Id has an identifying
property named id, whose synthesized value object is also named Id. -/
def c1Tree : PRD :=
  { emptyPrd with
    things := [{ name := "Id", description := "", rules := [], actions := []
               , properties := [{ name := "id", description := "text, unique" }] }] }

/-- C1 counterexample: on this tree the inference step produces both an Entity named
Id and a ValueObject named Id for the single Thing named Id, so a Thing does not map
to exactly one Entity or ValueObject of its name — never both — as the claim states:
the property-synthesis loop adds a value object named after the capitalized property
name, which collides with the Thing name. -/
theorem c1_thing_partition_cex :
    ((inferDdd c1Tree).entities.filter fun e => e.name == "Id").length = 1 ∧
    ((inferDdd c1Tree).value_objects.filter fun vo => vo.name == "Id").length = 1 := by
  decide

/-- C1 amended: restricted to the thing-derived constructs of the first inference
loop, every Thing yields exactly one construct — an Entity when some property
description contains unique case-insensitively, else a ValueObject — never both and
never neither, and a Thing with zero properties still yields a ValueObject with an
empty attribute list; the entity list of the model consists exactly of these per-Thing
contributions and the value object list starts from them, but the property-synthesis
loop may append further value objects that duplicate a Thing name, which is the sole
correction to the claim. -/
theorem c1_thing_partition (prd : PRD) (t : Thing) (ht : t ∈ prd.things) :
    (((thingEntity t).isSome ∧ (thingValueObject t).isNone) ∨
     ((thingEntity t).isNone ∧ (thingValueObject t).isSome)) ∧
    (t.properties = [] →
      thingValueObject t =
        some { name := t.name, description := t.description, attributes := []
             , invariants := t.rules, instances := [] }) ∧
    (inferDdd prd).entities = prd.things.filterMap thingEntity ∧
    (inferDdd prd).value_objects = synthLoop (prd.things.filterMap thingValueObject) prd.things := by
  refine ⟨?_, ?_, rfl, rfl⟩
  · by_cases h : hasId t
    · left; simp [thingEntity, thingValueObject, h]
    · right; simp [thingEntity, thingValueObject, h]
  · intro hp
    have h : hasId t = false := by simp [hasId, hp]
    simp [thingValueObject, h, mkThingVO, hp]

/-- Zero-property Thing used by the C1 witness. -/
def noteThing : Thing :=
  { name := "Note", description := "A note.", properties := [], rules := [], actions := [] }

/-- Witness for C1 at a tree with a zero-property Thing. -/
theorem c1_thing_partition_witness :
    (((thingEntity noteThing).isSome ∧ (thingValueObject noteThing).isNone) ∨
     ((thingEntity noteThing).isNone ∧ (thingValueObject noteThing).isSome)) ∧
    thingValueObject noteThing =
      some { name := noteThing.name, description := noteThing.description, attributes := []
           , invariants := noteThing.rules, instances := [] } :=
  ⟨(c1_thing_partition { emptyPrd with things := [noteThing] } noteThing (by decide)).1,
   (c1_thing_partition { emptyPrd with things := [noteThing] } noteThing (by decide)).2.1 rfl⟩

/-- C3: for every Thing with at least one property whose description contains unique
(case-insensitively), the inference step emits a Repository named ThingRepository with
exactly four behaviors findById, findAll, save and delete, and the findById parameter
type is the capitalized first comma-separated segment of the description of the
identifying property, which is the first such property of the Thing. -/
theorem c3_repository_shape (prd : PRD) (t : Thing) (p : Property)
    (ht : t ∈ prd.things) (hp : p ∈ t.properties)
    (hu : strHas (pyLower p.description) "unique" = true) :
    ∃ idp : Property, firstUniqueProp t = some idp ∧
      mkRepository t idp ∈ (inferDdd prd).repositories ∧
      (mkRepository t idp).name = t.name ++ "Repository" ∧
      (mkRepository t idp).behaviors.length = 4 ∧
      (mkRepository t idp).behaviors =
        [ "findById(" ++ idp.name ++ ": " ++ firstSeg idp.description ++ "): " ++ t.name
        , "findAll(): List<" ++ t.name ++ ">"
        , "save(" ++ pyLower t.name ++ ": " ++ t.name ++ ")"
        , "delete(" ++ pyLower t.name ++ ": " ++ t.name ++ ")" ] := by
  have hid : hasId t = true := by
    rw [hasId, List.any_eq_true]
    exact ⟨p, hp, hu⟩
  obtain ⟨idp, hidp⟩ : ∃ idp, firstUniqueProp t = some idp := by
    cases hfu : firstUniqueProp t with
    | some idp => exact ⟨idp, rfl⟩
    | none => exact absurd hu (by simpa using List.find?_eq_none.mp hfu p hp)
  refine ⟨idp, hidp, ?_, rfl, rfl, rfl⟩
  show mkRepository t idp ∈ prd.things.filterMap thingRepository
  rw [List.mem_filterMap]
  exact ⟨t, ht, by simp [thingRepository, hid, hidp]⟩

/-- Thing used by the C3 witness and the end-to-end scenario of the spec. -/
def bookThing : Thing :=
  { name := "Book", description := "A book."
    properties := [ { name := "title", description := "text, required" }
                  , { name := "id", description := "text, unique, required" } ]
    rules := ["A book must have a title"]
    actions := ["Add Book: Adds a book"] }

/-- Document tree used by the C3 and C8 witnesses. -/
def bookPrd : PRD := { emptyPrd with things := [bookThing] }

/-- Witness for C3 at the Book tree; the identifying property has description
text, unique, required, and the findById parameter type evaluates to Text. -/
theorem c3_repository_shape_witness :
    (∃ idp : Property, firstUniqueProp bookThing = some idp ∧
      mkRepository bookThing idp ∈ (inferDdd bookPrd).repositories ∧
      (mkRepository bookThing idp).name = bookThing.name ++ "Repository" ∧
      (mkRepository bookThing idp).behaviors.length = 4 ∧
      (mkRepository bookThing idp).behaviors =
        [ "findById(" ++ idp.name ++ ": " ++ firstSeg idp.description ++ "): " ++ bookThing.name
        , "findAll(): List<" ++ bookThing.name ++ ">"
        , "save(" ++ pyLower bookThing.name ++ ": " ++ bookThing.name ++ ")"
        , "delete(" ++ pyLower bookThing.name ++ ": " ++ bookThing.name ++ ")" ]) ∧
    firstSeg "text, unique, required" = "Text" :=
  ⟨c3_repository_shape bookPrd bookThing { name := "id", description := "text, unique, required" }
    (by decide) (by decide) (by decide), by decide⟩

/-- Reading of the C7 claim wording: the event name concatenates the capitalized
whitespace-delimited tokens at indices 1 and 2 of the notification. -/
def claimEventName (notif : String) : String :=
  joinAll ((((pySplitWs notif).drop 1).take 2).map pyCapitalize)

/-- Document tree for the C7 counterexample: the notification contains a double space. -/
def c7Tree : PRD :=
  { emptyPrd with
    operations := [{ name := "Add", description := "", who := "", inputs := []
                   , outputs := "", conditions := [], results := ""
                   , notifications := ["user was  added"] }] }

/-- C7 counterexample: the source splits the notification on single space characters,
not on whitespace runs, so for a notification with a double space the emitted event
name Was differs from the WasAdded demanded by the whitespace-delimited reading of the
claim. -/
theorem c7_event_naming_cex :
    ((inferDdd c7Tree).domain_events.map fun e => e.name) = ["Was"] ∧
    claimEventName "user was  added" = "WasAdded" ∧
    ("Was" : String) ≠ "WasAdded" := by decide

/-- C7 amended: for every notification string of every operation, the inference step
emits one DomainEvent whose name is the concatenation of the capitalized pieces at
indices 1 and 2 of the notification split on single space characters (empty pieces
produced by runs of whitespace are kept and capitalize to the empty string), whose
description is the raw notification text, and whose attributes mirror the declared
inputs of the operation with capitalized type names. -/
theorem c7_event_naming (prd : PRD) (op : Operation) (notif : String)
    (hop : op ∈ prd.operations) (hn : notif ∈ op.notifications) :
    mkEvent op notif ∈ (inferDdd prd).domain_events ∧
    (mkEvent op notif).name =
      joinAll ((((pySplitSep " " notif).drop 1).take 2).map pyCapitalize) ∧
    (mkEvent op notif).description = notif ∧
    (mkEvent op notif).attributes =
      op.inputs.map fun i => { name := i.name, type := pyCapitalize i.type } := by
  refine ⟨?_, rfl, rfl, rfl⟩
  show mkEvent op notif ∈ inferEvents prd.operations
  rw [inferEvents, List.mem_flatMap]
  exact ⟨op, hop, List.mem_map_of_mem _ hn⟩

/-- Witness for C7 at a one-operation tree. -/
theorem c7_event_naming_witness :
    mkEvent { name := "Add", description := "", who := "", inputs := []
            , outputs := "", conditions := [], results := ""
            , notifications := ["user was  added"] } "user was  added"
      ∈ (inferDdd c7Tree).domain_events :=
  (c7_event_naming c7Tree _ "user was  added" (by decide) (by decide)).1

/-- Helper: the single-role rule text ends in the word role, so it never equals the
fixed both-roles rule text, whatever the role token is. -/
theorem singleRole_ne_both (x : String) : "True for " ++ x ++ " role" ≠ bothRolesRule := by
  intro h
  have hd : (("True for " ++ x).data ++ " role".data).getLast? = bothRolesRule.data.getLast? := by
    rw [← String.data_append, h]
  rw [List.getLast?_append_of_ne_nil _ (by decide)] at hd
  exact absurd hd (by decide)

/-- Reading of the C6 claim wording: uppercase the who field and remove the trailing
word only. -/
def claimRoleToken (who : String) : String :=
  let u := pyUpper who
  if " ONLY".data.isSuffixOf u.data then ⟨u.data.take (u.data.length - 5)⟩ else u

/-- Document tree for the C6 counterexample: the who field contains the word only
twice. -/
def c6Tree : PRD :=
  { emptyPrd with
    operations := [{ name := "Op", description := "", who := "x only y only"
                   , inputs := [], outputs := "", conditions := [], results := ""
                   , notifications := [] }] }

/-- C6 counterexample: for who equal to x only y only the source removes every
occurrence of the uppercased word ONLY (rule True for X Y role), while the claim
prescribes removing only the trailing word only (role token X ONLY Y), so the claim
fails as stated. -/
theorem c6_permission_rules_cex :
    ((inferDdd c6Tree).domain_services.map fun s => s.behaviors.map fun b => b.rule) =
      [["True for X Y role"]] ∧
    claimRoleToken "x only y only" = "X ONLY Y" ∧
    ("True for X Y role" : String) ≠
      "True for " ++ claimRoleToken "x only y only" ++ " role" := by decide

/-- C6 amended: for every operation the singleton domain service gains one behavior
named can followed by the capitalized, space-stripped operation name; its rule text is
the fixed both-roles rule exactly when the who field contains all users
case-insensitively, and otherwise is True for R role, where R is the who field with
non-word non-space characters removed, uppercased, and with every occurrence of the
word ONLY with its leading space removed (not just a trailing occurrence, which is the
sole correction to the claim); who equal to Admin Only still yields the role token
ADMIN. -/
theorem c6_permission_rules (prd : PRD) (op : Operation) (hop : op ∈ prd.operations) :
    (inferDdd prd).domain_services =
      [{ name := "InventoryPermissionPolicy"
       , description := "Manages permissions for inventory operations."
       , behaviors := prd.operations.map mkPermBehavior }] ∧
    (mkPermBehavior op).name = "can" ++ joinAll ((pySplitWs op.name).map pyCapitalize) ∧
    ((mkPermBehavior op).rule = bothRolesRule ↔ strHas (pyLower op.who) "all users" = true) ∧
    (strHas (pyLower op.who) "all users" = false →
      (mkPermBehavior op).rule = "True for " ++ roleToken op.who ++ " role") := by
  have hne : prd.operations ≠ [] := by
    intro h; rw [h] at hop; cases hop
  refine ⟨?_, rfl, ?_, ?_⟩
  · simp [inferDdd, inferServices, List.isEmpty_iff, hne]
  · by_cases hc : strHas (pyLower op.who) "all users"
    · simp [mkPermBehavior, hc]
    · simp only [mkPermBehavior, Bool.not_eq_true] at hc ⊢
      rw [if_neg (by simp [hc])]
      simp [hc, singleRole_ne_both]
  · intro hc
    simp [mkPermBehavior, hc]

/-- Operation with who field Admin Only, for the C6 witness. -/
def adminOnlyOp : Operation :=
  { name := "Add Item", description := "", who := "Admin Only", inputs := []
  , outputs := "", conditions := [], results := "", notifications := [] }

/-- Operation with who field All Users, for the C6 witness. -/
def allUsersOp : Operation :=
  { name := "View Items", description := "", who := "All Users", inputs := []
  , outputs := "", conditions := [], results := "", notifications := [] }

/-- Witness for C6 at trees with who fields Admin Only and All Users. -/
theorem c6_permission_rules_witness :
    (mkPermBehavior adminOnlyOp).rule = "True for ADMIN role" ∧
    (mkPermBehavior allUsersOp).rule = bothRolesRule :=
  ⟨by
    have h := (c6_permission_rules { emptyPrd with operations := [adminOnlyOp] }
      adminOnlyOp (by decide)).2.2.2 (by decide)
    rw [h]; decide
  , by
    have h := (c6_permission_rules { emptyPrd with operations := [allUsersOp] }
      allUsersOp (by decide)).2.2.1
    exact h.mpr (by decide)⟩

/-- Helper: setRoleInsts keeps every member present, with name and attributes
unchanged (it only rewrites the instance list of the first Role value object). -/
theorem setRoleInsts_keeps (l : List ValueObject) (vo : ValueObject) (h : vo ∈ l) :
    ∃ vo' ∈ setRoleInsts l, vo'.name = vo.name ∧ vo'.attributes = vo.attributes := by
  induction l with
  | nil => cases h
  | cons a rest ih =>
    rw [setRoleInsts]
    by_cases ha : a.name == "Role"
    · rw [if_pos ha]
      rcases List.mem_cons.mp h with h1 | h2
      · exact ⟨{ a with instances := roleInsts }, List.mem_cons_self _ _, by rw [h1], by rw [h1]⟩
      · exact ⟨vo, List.mem_cons_of_mem _ h2, rfl, rfl⟩
    · rw [if_neg ha]
      rcases List.mem_cons.mp h with h1 | h2
      · exact ⟨a, List.mem_cons_self _ _, by rw [h1], by rw [h1]⟩
      · obtain ⟨vo', hm, hn, hatt⟩ := ih h2
        exact ⟨vo', List.mem_cons_of_mem _ hm, hn, hatt⟩

/-- Helper: one synthesis step keeps every member present, with name and attributes
unchanged. -/
theorem synthStep_keeps (tn : String) (l : List ValueObject) (p : Property)
    (vo : ValueObject) (h : vo ∈ l) :
    ∃ vo' ∈ synthStep tn l p, vo'.name = vo.name ∧ vo'.attributes = vo.attributes := by
  rw [synthStep]
  by_cases h1 : strHas (pyLower p.description) "unique" || strHas (pyLower p.description) "valid email"
  · simp only [h1, if_true]
    exact ⟨vo, List.mem_append_left _ h, rfl, rfl⟩
  · simp only [h1, if_false, Bool.false_eq_true]
    by_cases h2 : strHas (pyLower p.description) "list of roles"
    · simp only [h2, if_true]
      by_cases h3 : l.any fun v => v.name == "Role"
      · simp only [h3, if_true]
        exact setRoleInsts_keeps l vo h
      · simp only [h3, if_false, Bool.false_eq_true]
        exact ⟨vo, List.mem_append_left _ h, rfl, rfl⟩
    · simp only [h2, if_false, Bool.false_eq_true]
      exact ⟨vo, h, rfl, rfl⟩

/-- Helper: the property fold of the synthesis loop keeps every member present, with
name and attributes unchanged. -/
theorem foldProps_keeps (tn : String) (ps : List Property) (l : List ValueObject)
    (vo : ValueObject) (h : vo ∈ l) :
    ∃ vo' ∈ ps.foldl (synthStep tn) l, vo'.name = vo.name ∧ vo'.attributes = vo.attributes := by
  induction ps generalizing l vo with
  | nil => exact ⟨vo, h, rfl, rfl⟩
  | cons p rest ih =>
    rw [List.foldl_cons]
    obtain ⟨vo', hm, hn, hatt⟩ := synthStep_keeps tn l p vo h
    obtain ⟨vo'', hm2, hn2, hatt2⟩ := ih (synthStep tn l p) vo' hm
    exact ⟨vo'', hm2, hn2.trans hn, hatt2.trans hatt⟩

/-- Helper: the full synthesis loop keeps every member of its initial list present,
with name and attributes unchanged. -/
theorem synthLoop_keeps (things : List Thing) (init : List ValueObject)
    (vo : ValueObject) (h : vo ∈ init) :
    ∃ vo' ∈ synthLoop init things, vo'.name = vo.name ∧ vo'.attributes = vo.attributes := by
  induction things generalizing init vo with
  | nil => exact ⟨vo, h, rfl, rfl⟩
  | cons t rest ih =>
    rw [synthLoop, List.foldl_cons]
    obtain ⟨vo', hm, hn, hatt⟩ := foldProps_keeps t.name t.properties init vo h
    obtain ⟨vo'', hm2, hn2, hatt2⟩ := ih _ vo' hm
    exact ⟨vo'', hm2, hn2.trans hn, hatt2.trans hatt⟩

/-- Document tree for the C8 counterexample: a Thing without an identifying property
whose single property description contains list of. -/
def c8Tree : PRD :=
  { emptyPrd with
    things := [{ name := "Tag", description := "", rules := [], actions := []
               , properties := [{ name := "tags", description := "list of text" }] }] }

/-- C8 counterexample: for a Thing producing a ValueObject, a property description
containing list of is not overridden to the sequence type: the attribute type is the
capitalized first comma segment List of text, not List, and value object attributes
carry no constraints at all, so the claimed typing rule does not apply to Things
producing ValueObjects. -/
theorem c8_attribute_typing_cex :
    ((inferDdd c8Tree).value_objects.map fun vo => vo.attributes) =
      [[{ name := "tags", type := "List of text" }]] ∧
    strHas (pyLower "list of text") "list of" = true ∧
    ({ name := "tags", type := "List of text" } : VOAttr) ≠
      { name := "tags", type := "List" } := by decide

/-- C8 amended: the full typing rule — type from the capitalized first comma segment,
remaining segments as string constraints, and the sequence override for descriptions
containing list of — applies to the attributes of Things producing Entities; the
attributes of Things producing ValueObjects receive only the capitalized first comma
segment as type, with no constraint list and no sequence override, which is the
correction to the claim. -/
theorem c8_attribute_typing (prd : PRD) (t : Thing) (p : Property)
    (ht : t ∈ prd.things) (hp : p ∈ t.properties) :
    (hasId t = true →
      mkEntity t ∈ (inferDdd prd).entities ∧
      mkEntityAttr p ∈ (mkEntity t).attributes ∧
      mkEntityAttr p =
        { name := p.name
        , type := if strHas (pyLower p.description) "list of" then "List"
                  else firstSeg p.description
        , constraints := ((pySplitSep "," p.description).tail).map pyStrip }) ∧
    (hasId t = false →
      ∃ vo ∈ (inferDdd prd).value_objects,
        vo.name = t.name ∧
        vo.attributes = t.properties.map fun q => { name := q.name, type := firstSeg q.description }) := by
  constructor
  · intro hid
    refine ⟨?_, List.mem_map_of_mem _ hp, rfl⟩
    show mkEntity t ∈ prd.things.filterMap thingEntity
    rw [List.mem_filterMap]
    exact ⟨t, ht, by simp [thingEntity, hid]⟩
  · intro hid
    have hinit : mkThingVO t ∈ prd.things.filterMap thingValueObject := by
      rw [List.mem_filterMap]
      exact ⟨t, ht, by simp [thingValueObject, hid]⟩
    obtain ⟨vo', hm, hn, hatt⟩ := synthLoop_keeps prd.things _ (mkThingVO t) hinit
    exact ⟨vo', hm, hn, by rw [hatt]; rfl⟩

/-- Witness for C8 at the Book tree, entity branch, property title. -/
theorem c8_attribute_typing_witness :
    mkEntity bookThing ∈ (inferDdd bookPrd).entities ∧
    mkEntityAttr { name := "title", description := "text, required" } ∈ (mkEntity bookThing).attributes ∧
    mkEntityAttr { name := "title", description := "text, required" } =
      { name := "title"
      , type := if strHas (pyLower "text, required") "list of" then "List"
                else firstSeg "text, required"
      , constraints := ((pySplitSep "," "text, required").tail).map pyStrip } :=
  (c8_attribute_typing bookPrd bookThing { name := "title", description := "text, required" }
    (by decide) (by decide)).1 (by decide)

/-- The role cue as the middle branch of synthStep actually fires: the description
contains list of roles but neither unique nor valid email (those take the first
branch). -/
def isRoleCue (p : Property) : Bool :=
  strHas (pyLower p.description) "list of roles" &&
  !(strHas (pyLower p.description) "unique" || strHas (pyLower p.description) "valid email")

/-- The sublist of value objects named Role. -/
def roleFilter (l : List ValueObject) : List ValueObject :=
  l.filter fun vo => vo.name == "Role"

/-- Helper: roleFilter drops a head not named Role. -/
theorem roleFilter_cons_neg (a : ValueObject) (l : List ValueObject) (h : ¬ a.name = "Role") :
    roleFilter (a :: l) = roleFilter l := by
  simp [roleFilter, h]

/-- Helper: roleFilter keeps a head named Role. -/
theorem roleFilter_cons_pos (a : ValueObject) (l : List ValueObject) (h : a.name = "Role") :
    roleFilter (a :: l) = a :: roleFilter l := by
  simp [roleFilter, h]

/-- Helper: roleFilter distributes over append. -/
theorem roleFilter_append (l m : List ValueObject) :
    roleFilter (l ++ m) = roleFilter l ++ roleFilter m := by
  simp [roleFilter, List.filter_append]

/-- Helper: an empty roleFilter means the Role lookup fails. -/
theorem roleFilter_any_false (l : List ValueObject) (h : roleFilter l = []) :
    (l.any fun vo => vo.name == "Role") = false := by
  rw [List.any_eq_false]
  intro vo hvo hname
  have hm : vo ∈ roleFilter l := by
    rw [roleFilter, List.mem_filter]; exact ⟨hvo, hname⟩
  rw [h] at hm
  cases hm

/-- Helper: a singleton roleFilter means the Role lookup succeeds. -/
theorem roleFilter_any_true (l : List ValueObject) (h : roleFilter l = [roleVO]) :
    (l.any fun vo => vo.name == "Role") = true := by
  rw [List.any_eq_true]
  have hm : roleVO ∈ roleFilter l := by rw [h]; exact List.mem_cons_self _ _
  rw [roleFilter, List.mem_filter] at hm
  exact ⟨roleVO, hm.1, hm.2⟩

/-- Helper: rewriting the instance list of the first Role value object fixes nothing
when the only Role value object already carries the fixed instance pair. -/
theorem roleFilter_setRoleInsts (l : List ValueObject) (h : roleFilter l = [roleVO]) :
    roleFilter (setRoleInsts l) = [roleVO] := by
  induction l with
  | nil => simp [roleFilter] at h
  | cons a rest ih =>
    rw [setRoleInsts]
    by_cases ha : a.name = "Role"
    · rw [if_pos (by simp [ha])]
      rw [roleFilter_cons_pos a rest ha] at h
      injection h with h1 h2
      rw [roleFilter_cons_pos _ _ (show (ValueObject.name { a with instances := roleInsts }) = "Role" from ha)]
      rw [h2, h1]
      rfl
    · rw [if_neg (by simp [ha])]
      rw [roleFilter_cons_neg a rest ha] at h
      rw [roleFilter_cons_neg _ _ ha]
      exact ih h

/-- Helper: a synthesis step from a Role-free state creates the filled Role value
object exactly when the role cue fires, assuming the property would not synthesize a
value object named Role itself. -/
theorem roleFilter_synthStep_none (tn : String) (l : List ValueObject) (p : Property)
    (hname : pyCapitalize p.name ≠ "Role") (h : roleFilter l = []) :
    roleFilter (synthStep tn l p) = (if isRoleCue p then [roleVO] else []) := by
  rw [synthStep, isRoleCue]
  by_cases h1 : strHas (pyLower p.description) "unique" || strHas (pyLower p.description) "valid email"
  · simp only [h1, if_true, Bool.not_true, Bool.and_false, if_false, Bool.false_eq_true]
    rw [roleFilter_append, h]
    rw [show roleFilter [mkPropVO tn p] = [] from roleFilter_cons_neg _ [] hname]
    rfl
  · simp only [h1, if_false, Bool.false_eq_true, Bool.not_false, Bool.and_true]
    by_cases h2 : strHas (pyLower p.description) "list of roles"
    · simp only [h2, if_true, roleFilter_any_false l h, Bool.false_eq_true, if_false]
      rw [roleFilter_append, h]
      rw [roleFilter_cons_pos _ [] rfl]
      rfl
    · simp only [h2, if_false, Bool.false_eq_true]
      exact h

/-- Helper: a synthesis step preserves the singleton Role state. -/
theorem roleFilter_synthStep_one (tn : String) (l : List ValueObject) (p : Property)
    (hname : pyCapitalize p.name ≠ "Role") (h : roleFilter l = [roleVO]) :
    roleFilter (synthStep tn l p) = [roleVO] := by
  rw [synthStep]
  by_cases h1 : strHas (pyLower p.description) "unique" || strHas (pyLower p.description) "valid email"
  · simp only [h1, if_true]
    rw [roleFilter_append, h]
    rw [show roleFilter [mkPropVO tn p] = [] from roleFilter_cons_neg _ [] hname]
    rfl
  · simp only [h1, if_false, Bool.false_eq_true]
    by_cases h2 : strHas (pyLower p.description) "list of roles"
    · simp only [h2, if_true, roleFilter_any_true l h, if_true]
      exact roleFilter_setRoleInsts l h
    · simp only [h2, if_false, Bool.false_eq_true]
      exact h

/-- Helper: the property fold preserves the singleton Role state. -/
theorem roleFilter_foldProps_one (tn : String) (ps : List Property) (l : List ValueObject)
    (hnames : ∀ p ∈ ps, pyCapitalize p.name ≠ "Role") (h : roleFilter l = [roleVO]) :
    roleFilter (ps.foldl (synthStep tn) l) = [roleVO] := by
  induction ps generalizing l with
  | nil => exact h
  | cons p rest ih =>
    rw [List.foldl_cons]
    exact ih _ (fun q hq => hnames q (List.mem_cons_of_mem _ hq))
      (roleFilter_synthStep_one tn l p (hnames p (List.mem_cons_self _ _)) h)

/-- Helper: from a Role-free state, the property fold creates the filled Role value
object exactly when some property carries the role cue. -/
theorem roleFilter_foldProps_none (tn : String) (ps : List Property) (l : List ValueObject)
    (hnames : ∀ p ∈ ps, pyCapitalize p.name ≠ "Role") (h : roleFilter l = []) :
    roleFilter (ps.foldl (synthStep tn) l) = (if ps.any isRoleCue then [roleVO] else []) := by
  induction ps generalizing l with
  | nil => simpa using h
  | cons p rest ih =>
    rw [List.foldl_cons, List.any_cons]
    have hstep := roleFilter_synthStep_none tn l p (hnames p (List.mem_cons_self _ _)) h
    by_cases hc : isRoleCue p
    · rw [if_pos hc] at hstep
      rw [roleFilter_foldProps_one tn rest _ (fun q hq => hnames q (List.mem_cons_of_mem _ hq)) hstep]
      simp [hc]
    · rw [if_neg hc] at hstep
      rw [ih _ (fun q hq => hnames q (List.mem_cons_of_mem _ hq)) hstep]
      simp [hc]

/-- Helper: the full synthesis loop preserves the singleton Role state. -/
theorem roleFilter_synthLoop_one (things : List Thing) (init : List ValueObject)
    (hnames : ∀ t ∈ things, ∀ p ∈ t.properties, pyCapitalize p.name ≠ "Role")
    (h : roleFilter init = [roleVO]) :
    roleFilter (synthLoop init things) = [roleVO] := by
  induction things generalizing init with
  | nil => exact h
  | cons t rest ih =>
    rw [synthLoop, List.foldl_cons]
    exact ih _ (fun u hu => hnames u (List.mem_cons_of_mem _ hu))
      (roleFilter_foldProps_one t.name t.properties init
        (hnames t (List.mem_cons_self _ _)) h)

/-- Helper: from a Role-free initial state, the synthesis loop creates the filled Role
value object exactly when some property of some Thing carries the role cue. -/
theorem roleFilter_synthLoop_none (things : List Thing) (init : List ValueObject)
    (hnames : ∀ t ∈ things, ∀ p ∈ t.properties, pyCapitalize p.name ≠ "Role")
    (h : roleFilter init = []) :
    roleFilter (synthLoop init things) =
      (if things.any (fun t => t.properties.any isRoleCue) then [roleVO] else []) := by
  induction things generalizing init with
  | nil => simpa using h
  | cons t rest ih =>
    rw [synthLoop, List.foldl_cons, List.any_cons]
    have hstep := roleFilter_foldProps_none t.name t.properties init
      (hnames t (List.mem_cons_self _ _)) h
    by_cases hc : t.properties.any isRoleCue
    · rw [if_pos hc] at hstep
      rw [show (List.foldl (fun acc u => u.properties.foldl (synthStep u.name) acc)
        (t.properties.foldl (synthStep t.name) init) rest) =
        synthLoop (t.properties.foldl (synthStep t.name) init) rest from rfl]
      rw [roleFilter_synthLoop_one rest _ (fun u hu => hnames u (List.mem_cons_of_mem _ hu)) hstep]
      simp [hc]
    · rw [if_neg hc] at hstep
      rw [show (List.foldl (fun acc u => u.properties.foldl (synthStep u.name) acc)
        (t.properties.foldl (synthStep t.name) init) rest) =
        synthLoop (t.properties.foldl (synthStep t.name) init) rest from rfl]
      rw [ih _ (fun u hu => hnames u (List.mem_cons_of_mem _ hu)) hstep]
      simp [hc]

/-- Document tree for the C5 counterexample: the only property description contains
list of roles and also the word unique. -/
def c5Tree : PRD :=
  { emptyPrd with
    things := [{ name := "User", description := "", rules := [], actions := []
               , properties := [{ name := "perms", description := "unique list of roles" }] }] }

/-- C5 counterexample: a property description containing list of roles together with
unique takes the identifier branch of the synthesis loop, so no Role value object is
created at all, refuting the claim that any description containing list of roles
yields exactly one Role value object. -/
theorem c5_role_synthesis_cex :
    strHas (pyLower "unique list of roles") "list of roles" = true ∧
    roleFilter (inferDdd c5Tree).value_objects = [] := by decide

/-- C5 amended: for every document tree in which some property description contains
list of roles without also containing unique or valid email (which would divert the
property to the identifier branch), and in which no Thing is named Role and no
property name capitalizes to Role (which would collide with the lookup by name), the
inferred model contains exactly one ValueObject named Role, carrying exactly the two
instances ADMIN and REGULAR_USER, regardless of how many properties carry the cue. -/
theorem c5_role_synthesis (prd : PRD)
    (hcue : ∃ t ∈ prd.things, ∃ p ∈ t.properties, isRoleCue p = true)
    (hthing : ∀ t ∈ prd.things, t.name ≠ "Role")
    (hprop : ∀ t ∈ prd.things, ∀ p ∈ t.properties, pyCapitalize p.name ≠ "Role") :
    roleFilter (inferDdd prd).value_objects = [roleVO] ∧
    roleVO.instances.length = 2 ∧
    (roleVO.instances.map fun i => i.name) = ["ADMIN", "REGULAR_USER"] := by
  refine ⟨?_, rfl, rfl⟩
  have h0 : roleFilter (prd.things.filterMap thingValueObject) = [] := by
    rw [roleFilter, List.filter_eq_nil_iff]
    intro vo hvo
    rw [List.mem_filterMap] at hvo
    obtain ⟨t, ht, hs⟩ := hvo
    rw [thingValueObject] at hs
    by_cases hid : hasId t
    · simp [hid] at hs
    · simp only [hid, if_false, Bool.false_eq_true, Option.some.injEq] at hs
      have hn : vo.name = t.name := by rw [← hs]; rfl
      simp [hn, hthing t ht]
  show roleFilter (synthLoop (prd.things.filterMap thingValueObject) prd.things) = [roleVO]
  rw [roleFilter_synthLoop_none prd.things _ hprop h0]
  rw [if_pos ?_]
  rw [List.any_eq_true]
  obtain ⟨t, ht, p, hp, hc⟩ := hcue
  exact ⟨t, ht, List.any_eq_true.mpr ⟨p, hp, hc⟩⟩

/-- Document tree for the C5 witness: an identifying property plus two properties
carrying the role cue. -/
def c5wTree : PRD :=
  { emptyPrd with
    things := [{ name := "User", description := "", rules := [], actions := []
               , properties := [ { name := "id", description := "text, unique" }
                               , { name := "roles", description := "list of roles" }
                               , { name := "perms", description := "another list of roles" } ] }] }

/-- Witness for C5 at a tree with two role-cue properties: still exactly one Role
value object with the fixed two instances. -/
theorem c5_role_synthesis_witness :
    roleFilter (inferDdd c5wTree).value_objects = [roleVO] :=
  (c5_role_synthesis c5wTree (by decide) (by decide) (by decide)).1

/-- Helper: a section whose normalized name is not things leaves the things list
unchanged. -/
theorem applySection_things (prd : PRD) (nm body : String)
    (h : pyReplace (pyLower nm) " " "_" ≠ "things") :
    (applySection prd nm body).things = prd.things := by
  simp only [applySection]
  split_ifs <;> simp_all

/-- Helper: a section whose normalized name is not operations leaves the operation
list unchanged. -/
theorem applySection_operations (prd : PRD) (nm body : String)
    (h : pyReplace (pyLower nm) " " "_" ≠ "operations") :
    (applySection prd nm body).operations = prd.operations := by
  simp only [applySection]
  split_ifs <;> simp_all

/-- Helper: a section whose normalized name is not key_terms leaves the key term list
unchanged. -/
theorem applySection_key_terms (prd : PRD) (nm body : String)
    (h : pyReplace (pyLower nm) " " "_" ≠ "key_terms") :
    (applySection prd nm body).key_terms = prd.key_terms := by
  simp only [applySection]
  split_ifs <;> simp_all

/-- Helper: a section whose normalized name is not features leaves the feature list
unchanged. -/
theorem applySection_features (prd : PRD) (nm body : String)
    (h : pyReplace (pyLower nm) " " "_" ≠ "features") :
    (applySection prd nm body).features = prd.features := by
  simp only [applySection]
  split_ifs <;> simp_all

/-- Helper: a section whose normalized name is not connections leaves the connection
list unchanged. -/
theorem applySection_connections (prd : PRD) (nm body : String)
    (h : pyReplace (pyLower nm) " " "_" ≠ "connections") :
    (applySection prd nm body).connections = prd.connections := by
  simp only [applySection]
  split_ifs <;> simp_all

/-- Helper: a section whose normalized name is not constraints leaves the constraint
list unchanged. -/
theorem applySection_constraints (prd : PRD) (nm body : String)
    (h : pyReplace (pyLower nm) " " "_" ≠ "constraints") :
    (applySection prd nm body).constraints = prd.constraints := by
  simp only [applySection]
  split_ifs <;> simp_all

/-- Helper: a projection of the document tree that every dispatched section of the
pair list preserves is preserved by the whole section fold. -/
theorem foldSections_preserve {γ : Type} (g : PRD → γ) (P : String → Prop)
    (hg : ∀ prd nm body, P nm → g (applySection prd nm body) = g prd)
    (pairs : List (String × List Char)) (prd : PRD)
    (h : ∀ x ∈ pairs, P (pyStrip x.1)) :
    g (pairs.foldl (fun prd x => applySection prd (pyStrip x.1) (pyStrip ⟨x.2⟩)) prd) = g prd := by
  induction pairs generalizing prd with
  | nil => rfl
  | cons a rest ih =>
    rw [List.foldl_cons]
    rw [ih _ fun x hx => h x (List.mem_cons_of_mem _ hx)]
    exact hg prd _ _ (h a (List.mem_cons_self _ _))

/-- Normalized names of the parsed section pairs of a raw text. -/
def sectionNames (content : String) : List String :=
  ((splitCaps matchSectionMarker (normalizePrd content).data).2).map fun x =>
    pyReplace (pyLower (pyStrip x.1)) " " "_"

/-- Helper: a findall whose matcher never fires anywhere returns the empty list. -/
theorem findAllOf_nil_of_none {α : Type} (f : List Char → Option (α × List Char))
    (l : List Char) (h : scanFirst f l = none) : findAllOf f l = [] := by
  rw [findAllOf]
  cases hl : l.length with
  | zero => rfl
  | succ n => simp [findAllAux, h]

/-- C2: the structural parser is a total function on raw text; when the section split
finds no marker the result is the all-empty tree; a section absent from the parsed
pair list leaves its collection empty; and a present section whose body matches no
item yields the empty collection (shown for the key term and constraint scanners). -/
theorem c2_parser_recovery (content : String) :
    ((splitCaps matchSectionMarker (normalizePrd content).data).2 = [] →
      parsePrd content = emptyPrd) ∧
    ("things" ∉ sectionNames content → (parsePrd content).things = []) ∧
    ("operations" ∉ sectionNames content → (parsePrd content).operations = []) ∧
    ("key_terms" ∉ sectionNames content → (parsePrd content).key_terms = []) ∧
    ("features" ∉ sectionNames content → (parsePrd content).features = []) ∧
    ("connections" ∉ sectionNames content → (parsePrd content).connections = []) ∧
    ("constraints" ∉ sectionNames content → (parsePrd content).constraints = []) ∧
    (∀ body : List Char, scanFirst matchKeyTerm body = none → parseKeyTermsSec body = []) ∧
    (∀ body : List Char, scanFirst matchConstraint body = none → parseConstraintsSec body = []) := by
  have habs :
      ∀ (γ : Type) (g : PRD → List γ) (sec : String),
        (∀ prd nm body, pyReplace (pyLower nm) " " "_" ≠ sec →
          g (applySection prd nm body) = g prd) →
        g emptyPrd = [] →
        sec ∉ sectionNames content → g (parsePrd content) = [] := by
    intro γ g sec hg hempty hns
    rw [parsePrd]
    by_cases hp : ((splitCaps matchSectionMarker (normalizePrd content).data).2).isEmpty
    · simp only [hp, if_true]
      exact hempty
    · simp only [hp, if_false, Bool.false_eq_true]
      rw [foldSections_preserve g (fun nm => pyReplace (pyLower nm) " " "_" ≠ sec) hg _ _ ?_]
      · exact hempty
      · intro x hx hcontra
        exact hns (by rw [sectionNames, List.mem_map]; exact ⟨x, hx, hcontra⟩)
  refine ⟨?_, ?_, ?_, ?_, ?_, ?_, ?_, ?_, ?_⟩
  · intro h
    rw [parsePrd]
    simp [h]
  · exact habs _ (fun prd => prd.things) "things" applySection_things rfl
  · exact habs _ (fun prd => prd.operations) "operations" applySection_operations rfl
  · exact habs _ (fun prd => prd.key_terms) "key_terms" applySection_key_terms rfl
  · exact habs _ (fun prd => prd.features) "features" applySection_features rfl
  · exact habs _ (fun prd => prd.connections) "connections" applySection_connections rfl
  · exact habs _ (fun prd => prd.constraints) "constraints" applySection_constraints rfl
  · exact fun body h => findAllOf_nil_of_none matchKeyTerm body h
  · exact fun body h => findAllOf_nil_of_none matchConstraint body h

/-- Witness for C2: a marker-free text parses to the all-empty tree, and a text with
only an overview section has an empty things collection. -/
theorem c2_parser_recovery_witness :
    parsePrd "plain text without any marker" = emptyPrd ∧
    (parsePrd "# Overview\n- Product Description: Only overview.").things = [] :=
  ⟨(c2_parser_recovery "plain text without any marker").1 (by decide),
   (c2_parser_recovery "# Overview\n- Product Description: Only overview.").2.1 (by decide)⟩

/-- Helper: the close brace test on a cons. -/
theorem isCloseBrace_cons (c : Char) (t : List Char) :
    isCloseBrace (c :: t) = ('\x7d' == c) := by
  show List.isPrefixOf ['\x7d'] (c :: t) = _
  simp [List.isPrefixOf]

/-- Helper: the characters before the first close brace contain no close brace. -/
theorem posOfSfx_close_take (l : List Char) (i : Nat)
    (h : posOfSfx isCloseBrace l = some i) : '\x7d' ∉ l.take i := by
  induction l generalizing i with
  | nil => simp [posOfSfx] at h
  | cons c t ih =>
    rw [posOfSfx] at h
    split at h
    · injection h with h1
      rw [← h1]
      simp
    · rename_i hc
      cases hx : posOfSfx isCloseBrace t with
      | none => rw [hx] at h; simp at h
      | some j =>
        rw [hx] at h
        have hji : j + 1 = i := by simpa using h
        rw [← hji, List.take_succ_cons]
        intro hmem
        rcases List.mem_cons.mp hmem with h1 | h2
        · rw [isCloseBrace_cons] at hc
          exact hc (by rw [← h1]; simp)
        · exact ih j hx h2

/-- Helper: without a close brace the position search fails. -/
theorem posOfSfx_close_none (l : List Char) (h : '\x7d' ∉ l) :
    posOfSfx isCloseBrace l = none := by
  induction l with
  | nil => rfl
  | cons c t ih =>
    rw [posOfSfx]
    rw [if_neg ?_, ih fun hm => h (List.mem_cons_of_mem _ hm)]
    · rfl
    · rw [isCloseBrace_cons]
      intro hb
      exact h (by rw [show c = '\x7d' from (eq_of_beq hb).symm]; exact List.mem_cons_self _ _)

/-- Helper: a top-level block capture of the transpiler never contains a close brace,
because the lazy capture stops at the first one. -/
theorem matchTopBlock_no_brace (kw : String) (l : List Char) (nm content : String)
    (rest : List Char) (h : matchTopBlock kw l = some ((nm, content), rest)) :
    '\x7d' ∉ content.data := by
  simp only [matchTopBlock] at h
  split at h
  · cases h
  · split at h
    · cases h
    · split at h
      · cases h
      · split at h
        · cases h
        · split at h
          · cases h
          · rename_i hpos
            injection h with h1
            injection h1 with h2 h3
            injection h2 with h4 h5
            rw [← h5]
            exact posOfSfx_close_take _ _ hpos

/-- Helper: without a close brace in the text, a brace sub-block matcher fails. -/
theorem matchBraceBlock_none (label : String) (s : List Char) (h : '\x7d' ∉ s) :
    matchBraceBlock label s = none := by
  cases hd : dropLit label s with
  | none => simp [matchBraceBlock, hd]
  | some r1 =>
    have hr1 : '\x7d' ∉ r1 := by
      rw [dropLit] at hd
      split at hd
      · injection hd with h1
        rw [← h1]
        intro hm
        exact h (List.mem_of_mem_drop hm)
      · cases hd
    have hr2 : '\x7d' ∉ r1.dropWhile isPySpace := fun hm =>
      hr1 ((List.dropWhile_sublist _).subset hm)
    cases hb : dropLit "\x7b" (r1.dropWhile isPySpace) with
    | none => simp [matchBraceBlock, hd, hb]
    | some r3 =>
      have hr3 : '\x7d' ∉ r3 := by
        rw [dropLit] at hb
        split at hb
        · injection hb with h1
          rw [← h1]
          intro hm
          exact hr2 (List.mem_of_mem_drop hm)
        · cases hb
      simp [matchBraceBlock, hd, hb, posOfSfx_close_none r3 hr3]

/-- Helper: without a close brace anywhere, the brace sub-block search fails. -/
theorem scanFirst_brace_none (label : String) (l : List Char) (h : '\x7d' ∉ l) :
    scanFirst (matchBraceBlock label) l = none := by
  induction l with
  | nil => rfl
  | cons c t ih =>
    rw [scanFirst, matchBraceBlock_none label _ h,
      ih fun hm => h (List.mem_cons_of_mem _ hm)]
    rfl

/-- Helper: an Entity block whose captured content has no close brace emits nothing:
both the attributes search and the behaviors search fail. -/
theorem entityLines_nil (nm content : String) (h : '\x7d' ∉ content.data) :
    entityLines nm content = [] := by
  simp [entityLines, searchBraceBlock, scanFirst_brace_none _ _ h]

/-- Helper: a ValueObject block whose captured content has no close brace emits
nothing: the instances search fails. -/
theorem voEnumLines_nil (nm content : String) (h : '\x7d' ∉ content.data) :
    voEnumLines nm content = [] := by
  simp [voEnumLines, searchBraceBlock, scanFirst_brace_none _ _ h]

/-- Helper: a successful scan comes from a successful matcher application at some
suffix. -/
theorem scanFirst_some_src {α : Type} (f : List Char → Option (α × List Char))
    (l pre : List Char) (a : α) (rest : List Char)
    (h : scanFirst f l = some (pre, a, rest)) :
    ∃ s : List Char, f s = some (a, rest) := by
  induction l generalizing pre with
  | nil => simp [scanFirst] at h
  | cons c t ih =>
    rw [scanFirst] at h
    cases hf : f (c :: t) with
    | some x =>
      rw [hf] at h
      simp only [Option.some.injEq, Prod.mk.injEq] at h
      refine ⟨c :: t, ?_⟩
      rw [hf, show x = (x.1, x.2) from rfl, h.2.1, h.2.2]
    | none =>
      rw [hf] at h
      cases hs : scanFirst f t with
      | none => rw [hs] at h; cases h
      | some y =>
        rw [hs] at h
        have h' : (c :: y.1, y.2.1, y.2.2) = (pre, a, rest) := by simpa using h
        refine ih y.1 ?_
        rw [hs, show y = (y.1, y.2.1, y.2.2) from rfl,
          show y.2.1 = a from congrArg (fun z => z.2.1) h',
          show y.2.2 = rest from congrArg (fun z => z.2.2) h']

/-- Helper: every element of a fueled findall comes from a successful matcher
application at some suffix. -/
theorem findAllAux_src {α : Type} (f : List Char → Option (α × List Char))
    (fuel : Nat) (l : List Char) (a : α) (h : a ∈ findAllAux f fuel l) :
    ∃ s rest, f s = some (a, rest) := by
  induction fuel generalizing l with
  | zero => cases h
  | succ n ih =>
    rw [findAllAux] at h
    cases hs : scanFirst f l with
    | none => rw [hs] at h; cases h
    | some x =>
      rw [hs] at h
      have h' : a ∈ x.2.1 :: findAllAux f n x.2.2 := by
        rw [show x = (x.1, x.2.1, x.2.2) from rfl] at h
        exact h
      rcases List.mem_cons.mp h' with h1 | h2
      · obtain ⟨s, hf⟩ := scanFirst_some_src f l x.1 x.2.1 x.2.2
          (by rw [hs, show x = (x.1, x.2.1, x.2.2) from rfl])
        exact ⟨s, x.2.2, by rw [h1]; exact hf⟩
      · exact ih _ h2

/-- Helper: every top-level block found by the transpiler has a capture without a
close brace. -/
theorem allBlocks_no_brace (kw : String) (l : List Char) (x : String × String)
    (h : x ∈ allBlocks kw l) : '\x7d' ∉ x.2.data := by
  obtain ⟨s, rest, hf⟩ := findAllAux_src _ _ _ _ h
  exact matchTopBlock_no_brace kw s x.1 x.2 rest
    (by rw [hf, show x = (x.1, x.2) from rfl])

/-- Helper: the transpiler emits only the fixed header for every input: every Entity
or ValueObject block capture stops at the first close brace, so the inner attributes,
behaviors and instances searches, which each require a close brace inside the capture,
always fail, and no model, interface, endpoint or enum lines are ever produced. -/
theorem convert_header_only (csl : String) :
    convert csl = joinLines (headerLines (contextName csl)) := by
  rw [convert]
  have he : (allBlocks "Entity" csl.data).flatMap (fun e => entityLines e.1 e.2) = [] := by
    rw [List.flatMap_eq_nil_iff]
    intro x hx
    exact entityLines_nil x.1 x.2 (allBlocks_no_brace "Entity" csl.data x hx)
  have hv : (allBlocks "ValueObject" csl.data).flatMap (fun v => voEnumLines v.1 v.2) = [] := by
    rw [List.flatMap_eq_nil_iff]
    intro x hx
    exact voEnumLines_nil x.1 x.2 (allBlocks_no_brace "ValueObject" csl.data x hx)
  rw [he, hv, List.append_nil, List.append_nil]

/-- Canonical notation text for C4: an Entity block with an add behavior and a remove
behavior, in the shape written by the generator. -/
def c4Csl : String :=
  "BoundedContext Library \x7b\n  Entity Book \x7b\n    attributes: \x7b\n      " ++
  "title: Text\n    \x7d\n    behaviors: \x7b\n      addBook: \"Adds a book\"\n      " ++
  "removeBook: \"Removes a book\"\n    \x7d\n  \x7d\n\x7d\n"

set_option maxRecDepth 40000 in
/-- C4: the schema transpiler never emits the claimed create or delete endpoints: on
this input, whose Entity block has behaviors containing add and remove, the Entity
block is found but its capture stops at the first close brace, so the output is
exactly the fixed header and contains no status-coded result variant at all, where the
claim demands a 201/400 pair for add and a 204/404 pair for remove; the endpoint
emission code of the source is unreachable for every input. -/
theorem c4_transpiler_no_endpoints :
    strHas c4Csl "addBook" = true ∧
    strHas c4Csl "removeBook" = true ∧
    ((allBlocks "Entity" c4Csl.data).map fun e => e.1) = ["Book"] ∧
    convert c4Csl = joinLines (headerLines "Library") ∧
    strHas (convert c4Csl) "statusCode" = false ∧
    strHas (convert c4Csl) "create" = false ∧
    strHas (convert c4Csl) "delete" = false := by decide

end PrdPipeline
